import Mathlib

/-!
Verification development for the run-list pagination engine of
`30_PdfRunlistGenerator.py` (function `generate_pdf_run_list` and its
helpers `_build_fragmentation_lines`, `draw_message_block`,
`trigger_page_break_for_messages`, plus the SKU/Description width planner).

Modelling conventions:

* Page geometry is exact decimal arithmetic in the source (multiples of
  0.04 pt); we represent every coordinate in integer hundredths of a
  PostScript point ("centipoints"), so `0.22 * inch = 15.84 pt` becomes
  `1584`.  Float rounding of the Python runtime is out of scope; the spec
  treats coordinates as reals.
* Quantities are exact rationals.  All executable quantity arithmetic goes
  through `mkRat`-based wrappers (`qAdd`, `qNeg`) because the library's
  `Rat.add` is not kernel-reducible; lemmas `qAdd_eq`/`qNeg_eq` identify
  them with the field operations.
* Python string primitives (`strip`, `lower`, `split`, `", ".join`,
  `sorted`, set deduplication) are re-implemented structurally on
  character lists so that concrete executions reduce in the kernel.
* The abstract text-measurement facility (reportlab `simpleSplit`) is a
  parameter `SplitFn`, as §2/§6 of the spec demand ("abstract
  text-measurement function").
-/

namespace MarcomPdf

/-! ### Rational helpers (kernel-computable wrappers) -/

/-- Kernel-computable addition on `ℚ` (the library `Rat.add` is
irreducible).  `qAdd_eq` identifies it with `+`. -/
def qAdd (a b : ℚ) : ℚ := mkRat (a.num * b.den + b.num * a.den) (a.den * b.den)

/-- Kernel-computable negation on `ℚ`. -/
def qNeg (a : ℚ) : ℚ := mkRat (-a.num) a.den

/-- Python `int()` applied to a rational: truncation toward zero. -/
def pyIntTrunc (q : ℚ) : Int := q.num.tdiv q.den

/-! ### Python string primitives, re-implemented structurally -/

/-- Characters removed by Python `str.strip()` (ASCII whitespace). -/
def trimChars (cs : List Char) : List Char :=
  ((cs.dropWhile Char.isWhitespace).reverse.dropWhile Char.isWhitespace).reverse

/-- Python `str.strip()`. -/
def pyStrip (s : String) : String := String.mk (trimChars s.data)

/-- Python `str.lower()` (ASCII; the engine only compares the sentinel "nan"). -/
def pyLower (s : String) : String := String.mk (s.data.map Char.toLower)

/-- Python `str(x)` for a cell value that is either a string or a float NaN
(`str(float('nan')) = 'nan'`, and pandas `astype(str)` renders NaN the
same way). -/
inductive CellVal where
  | na : CellVal
  | str (s : String) : CellVal
deriving DecidableEq, Repr

/-- Python `str()` on a cell value. -/
def pyStr : CellVal → String
  | .na => "nan"
  | .str s => s

/-- `pd.notna` on a cell value. -/
def pdNotNa : CellVal → Bool
  | .na => false
  | .str _ => true

/-- `pd.isna` on a cell value. -/
def pdIsNa : CellVal → Bool
  | .na => true
  | .str _ => false

/-- lines 166-167: `str(store_id_str).split('-', 1)[0].strip()` —
the text before the first `'-'` (the whole string when there is none),
stripped of surrounding whitespace. -/
def get_store_num (store_id_str : String) : String :=
  pyStrip (String.mk (store_id_str.data.takeWhile (fun c => c ≠ '-')))

/-- Split a character list on a separator character (Python `str.split(sep)`
shape: always at least one group). -/
def splitOnChar (sep : Char) : List Char → List (List Char)
  | [] => [[]]
  | c :: cs =>
    if c = sep then [] :: splitOnChar sep cs
    else
      match splitOnChar sep cs with
      | [] => [[c]]
      | g :: gs => (c :: g) :: gs

/-- Numeric value of a digit list. -/
def digitsVal (cs : List Char) : Nat :=
  cs.foldl (fun a c => a * 10 + (c.toNat - 48)) 0

/-- Model of `pd.to_numeric(s, errors='coerce')` on the strings this
pipeline produces: an optional sign followed by decimal digits with an
optional fractional part parses exactly; everything else (in particular
the empty string and non-numeric text) coerces to NaN, i.e. `none`. -/
def toNumeric (s : String) : Option ℚ :=
  let t := trimChars s.data
  let sgnBody : Int × List Char :=
    match t with
    | '-' :: rest => (-1, rest)
    | '+' :: rest => (1, rest)
    | _ => (1, t)
  let sgn := sgnBody.1
  let body := sgnBody.2
  match splitOnChar '.' body with
  | [w] =>
    if !w.isEmpty && w.all Char.isDigit then
      some (mkRat (sgn * digitsVal w) 1)
    else none
  | [w, f] =>
    if (!w.isEmpty || !f.isEmpty) && w.all Char.isDigit && f.all Char.isDigit then
      some (mkRat (sgn * (digitsVal w * 10 ^ f.length + digitsVal f)) (10 ^ f.length))
    else none
  | _ => none

/-- Code-point comparison of strings, as Python `sorted` uses. -/
def charListLe : List Char → List Char → Bool
  | [], _ => true
  | _ :: _, [] => false
  | a :: as, b :: bs =>
    if a.toNat < b.toNat then true
    else if b.toNat < a.toNat then false
    else charListLe as bs

/-- Python string `<=`. -/
def pyStrLe (a b : String) : Bool := charListLe a.data b.data

/-- Insertion step of `pySorted`. -/
def insertStr (a : String) : List String → List String
  | [] => [a]
  | b :: bs => if pyStrLe a b then a :: b :: bs else b :: insertStr a bs

/-- Python `sorted` on strings (insertion sort; stable, code-point order). -/
def pySorted : List String → List String
  | [] => []
  | a :: as => insertStr a (pySorted as)

/-- Deduplication keeping the last occurrence: together with `pySorted`
this models `sorted(list(<set>))` — the sorted list of distinct values. -/
def dedupKeepLast : List String → List String
  | [] => []
  | a :: as => if as.contains a then dedupKeepLast as else a :: dedupKeepLast as

/-- Python `sep.join(l)`. -/
def pyJoin (sep : String) : List String → String
  | [] => ""
  | [a] => a
  | a :: as => a ++ sep ++ pyJoin sep as

/-! ### The fragmentation map (§3 of the spec) and the annotator

The map is consumed as parsed JSON.  The store- and order-level entries are
read under fixed correct keys, so they are modelled as structures; the
job-level entry is read under a *string* key in the code
(`map_job.get('is_fragmentED')`, line 191), so it stays an association
list of boolean fields, exactly like the JSON object it is. -/

/-- A `fragmented_jobs` value: a JSON object of boolean fields. -/
def JobEntry := List (String × Bool)

/-- A `fragmented_orders` value. -/
structure OrderEntry where
  is_fragmented : Bool
  fragmented_jobs : List (String × JobEntry)

/-- A `store_report_map` value. -/
structure StoreEntry where
  is_fragmented : Bool
  destinations : List String
  fragmented_orders : List (String × OrderEntry)

/-- The `store_report_map` component of the fragmentation map. -/
def StoreReportMap := List (String × StoreEntry)

/-- lines 169-175: sort the destinations other than the current sheet and
join them with `", "`. -/
def format_dests (dests_list : List String) (current_sheet : String) : String :=
  let other_dests := pySorted (dests_list.filter (fun d => d ≠ current_sheet))
  pyJoin ", " other_dests

/-- The body of the `for (store_id, order_id, job_id) in entities_to_report`
loop of `_build_fragmentation_lines` (lines 177-204): the message this
entity contributes, if any. -/
def entityMsg (store_report_map : StoreReportMap) (sheet_name : String)
    (e : String × String × String) : Option String :=
  let store_id := e.1
  let order_id := e.2.1
  let job_id := e.2.2
  match List.lookup store_id store_report_map with
  | none => none
  | some map_store =>
    if !map_store.is_fragmented then none
    else
      let store_num_display := get_store_num store_id
      let context_parts : List String :=
        match List.lookup order_id map_store.fragmented_orders with
        | none => []
        | some map_order =>
          if map_order.is_fragmented then
            let base := ["Order " ++ order_id]
            match List.lookup job_id map_order.fragmented_jobs with
            | none => base
            | some map_job =>
              if (List.lookup "is_fragmentED" map_job).getD false then
                base ++ ["JOB " ++ job_id]
              else base
          else []
      let dests_display := format_dests map_store.destinations sheet_name
      if dests_display = "" then none
      else if context_parts.isEmpty then
        some ("Store " ++ store_num_display ++ " has other content appearing in: "
          ++ dests_display)
      else
        some ("Store " ++ store_num_display ++ " (" ++ pyJoin ", " context_parts
          ++ ") has other content appearing in: " ++ dests_display)

/-- `_build_fragmentation_lines` (lines 163-206): the deduplicated, sorted
message list — `sorted(list(messages_to_build))` over the per-entity
messages. -/
def build_fragmentation_lines (entities_to_report : List (String × String × String))
    (store_report_map : StoreReportMap) (sheet_name : String) : List String :=
  pySorted (dedupKeepLast
    (entities_to_report.filterMap (entityMsg store_report_map sheet_name)))

/-! ### Column layout planner (lines 129-149), in rational points -/

/-- Sum of the five fixed column widths (line 129), in points. -/
def fixed_cols_width : ℚ := (1 + 1.125 + 0.75 + 0.75 + 0.625) * 72

/-- line 130: printable width minus paddings minus the fixed columns. -/
def available_table_width : ℚ := ((11 * 72 - 2 * (0.375 * 72)) - 2 * (0.05 * 72) - 2 * 5) - fixed_cols_width

/-- Default width of the SKU column (line 123), in points. -/
def sku_default_width : ℚ := 2.625 * 72

/-- Default width of the Product Description column (line 124), in points. -/
def desc_default_width : ℚ := 2.625 * 72

/-- The configured minimum width (line 136), in points. -/
def planner_min_width : ℚ := 1.5 * 72

/-- lines 134-149: proportional shrink of the two variable-width columns,
each floored at `min_width`.  Returns the final (SKU, Description) widths. -/
def planDynamicWidths (sku_w desc_w avail_w min_w : ℚ) : ℚ × ℚ :=
  let dynamic_cols_default_width := sku_w + desc_w
  if avail_w < dynamic_cols_default_width then
    let excess := dynamic_cols_default_width - avail_w
    let total_adj_width := sku_w + desc_w
    if 0 < total_adj_width then
      let sku_prop := sku_w / total_adj_width
      let desc_prop := desc_w / total_adj_width
      (max min_w (sku_w - excess * sku_prop), max min_w (desc_w - excess * desc_prop))
    else (min_w, min_w)
  else (sku_w, desc_w)

/-! ### Page geometry (lines 108-109, 269-286), in centipoints

All the source's coordinate constants are exact multiples of 0.01 pt, so we
work in integer hundredths of a point. -/

/-- One inch = 72 pt = 7200 centipoints. -/
def inch : Int := 7200

/-- `ELEVENSEVENTEEN` page width. -/
def page_width : Int := 11 * inch

/-- `ELEVENSEVENTEEN` page height. -/
def page_height : Int := 17 * inch

/-- `0.375 * inch`. -/
def margin : Int := 2700

/-- `0.05 * inch`. -/
def frame_padding : Int := 360

/-- line 109. -/
def printable_width : Int := page_width - 2 * margin

/-- line 110 (5 pt). -/
def store_padding : Int := 500

/-- line 270 (1.25 inch). -/
def header_height : Int := 9000

/-- line 270 (0.5 inch). -/
def footer_height : Int := 3600

/-- line 270 (0.5 inch). -/
def table_header_height : Int := 3600

/-- line 270 (0.22 inch = 15.84 pt). -/
def row_height : Int := 1584

/-- line 273. -/
def header_gap : Int := 1584

/-- line 274. -/
def job_gap : Int := 1584

/-- line 275. -/
def order_gap : Int := 1584

/-- line 276. -/
def store_gap : Int := 1584

/-- line 278 (5 pt). -/
def text_cell_padding : Int := 500

/-- line 279: `margin + footer_height`. -/
def page_bottom_margin_y : Int := margin + footer_height

/-- line 281 (14 pt). -/
def frag_msg_font_size : Int := 1400

/-- line 282: `frag_msg_font_size * 1.3` = 18.2 pt. -/
def frag_msg_line_height : Int := frag_msg_font_size * 13 / 10

/-- line 283. -/
def frag_msg_start_x : Int := margin + frame_padding + 500

/-- line 284. -/
def frag_msg_drawable_width : Int := printable_width - 2 * frame_padding - 1000

/-- line 286: `page_bottom_margin_y + 0.5 * inch`. -/
def page_bottom_content_area_y : Int := page_bottom_margin_y + 3600

/-- The cursor position `draw_new_page_headers` returns: line 349 computes
`height - margin - header_height`, then line 386 subtracts
`table_header_height` before returning. -/
def pageTopY : Int := page_height - margin - header_height - table_header_height

/-- line 30. -/
def CUSTOM_FONT_REGULAR : String := "Calibri-Light"

/-- line 31. -/
def CUSTOM_FONT_BOLD : String := "Calibri-Bold"

/-! ### Rows and columns -/

/-- A row of the sheet as the pagination loop sees it, i.e. *after* the
`astype(str)` conversion of the three key columns (lines 293-295): the
store / order / job keys are strings; the remaining cells are looked up by
source-column name.  -/
structure Row where
  store : String
  order : String
  job : String
  cells : List (String × CellVal)
deriving DecidableEq, Repr

/-- A row before the key columns are stringified. -/
structure RawRow where
  store : CellVal
  order : CellVal
  job : CellVal
  cells : List (String × CellVal)
deriving DecidableEq, Repr

/-- lines 293-295: `df[col].astype(str)` on the three key columns.  (The
subsequent `.fillna('N/A')` is a no-op: after `astype(str)` no cell is NaN,
a null has become the string `"nan"`.) -/
def prepRow (r : RawRow) : Row :=
  { store := pyStr r.store, order := pyStr r.order, job := pyStr r.job, cells := r.cells }

/-- The configured column names (from `config['column_names']`, lines
111-115 and 127), plus the fixed `'Base Job Ticket Number'`. -/
structure ColNames where
  job_ticket_number : String
  quantity_ordered : String
  order_number : String
  cost_center : String
  product_id : String
  sku : String
  product_description : String
deriving DecidableEq, Repr

/-- `row.get(col, "")` (line 545): the three key columns hold the
stringified keys; any other column comes from `cells`, defaulting to the
empty string. -/
def Row.get (r : Row) (c : ColNames) (col : String) : CellVal :=
  if col = c.cost_center then .str r.store
  else if col = c.order_number then .str r.order
  else if col = "Base Job Ticket Number" then .str r.job
  else (List.lookup col r.cells).getD (.str "")

/-- Column alignment. -/
inductive Align where
  | left : Align
  | center : Align
deriving DecidableEq, Repr

/-- One entry of `PDF_COLS`. -/
structure ColSpec where
  name : String
  source : String
  width : Int
  align : Align
deriving DecidableEq, Repr

/-- `PDF_COLS` (lines 151-159), in the source's insertion order; the two
variable widths are the planner's outputs. -/
def pdfCols (c : ColNames) (sku_w desc_w : Int) : List ColSpec :=
  [ ⟨"Job\nNumber", c.job_ticket_number, 7200, Align.left⟩,
    ⟨"Qty", c.quantity_ordered, 4500, Align.center⟩,
    ⟨"Order\nNumber", c.order_number, 8100, Align.center⟩,
    ⟨"Store\nNumber", c.cost_center, 5400, Align.center⟩,
    ⟨"Product\nID", c.product_id, 5400, Align.center⟩,
    ⟨"SKU", c.sku, sku_w, Align.left⟩,
    ⟨"Product\nDescription", c.product_description, desc_w, Align.left⟩ ]

/-- lines 545-550: `str(raw_value)` unless the value is NaN, then blanking
of the `'nan'` sentinel. -/
def cleanCellText (v : CellVal) : String :=
  let raw_text := if pdIsNa v then "" else pyStr v
  if pyLower (pyStrip raw_text) = "nan" then "" else raw_text

/-- The abstract text splitter (reportlab `simpleSplit`):
text → font name → font size (centipoints) → max width (centipoints) →
wrapped lines. -/
def SplitFn := String → String → Int → Int → List String

/-- lines 545-578, the per-cell text pipeline: clean the value, apply the
Store Number truncation, wrap to the cell width and keep the first line
(`lines_split[0] if lines_split else ""`). -/
def cellRenderedText (split : SplitFn) (col : ColSpec) (v : CellVal) : String :=
  let raw_text := cleanCellText v
  let raw_text := if col.name = "Store\nNumber" then get_store_num raw_text else raw_text
  let allowed_width := col.width - 2 * text_cell_padding
  let font_to_use_for_split :=
    if col.name = "Store\nNumber" then CUSTOM_FONT_BOLD else CUSTOM_FONT_REGULAR
  (split raw_text font_to_use_for_split 1000 allowed_width).headD ""

/-- The engine's per-sheet environment: abstract splitter, configured
column names, planned variable widths, current sheet name, fragmentation
map. -/
structure Env where
  split : SplitFn
  cols : ColNames
  sku_w : Int
  desc_w : Int
  sheet_name : String
  store_report_map : StoreReportMap

/-- The quantity the column loop (lines 542-580) adds to `page_total_qty`
for one row: iterate `PDF_COLS`, run the cell-text pipeline, and for the
`Qty` column add `pd.to_numeric(raw_text)` when it is not NaN
(lines 555-558). -/
def rowQtyDelta (env : Env) (r : Row) : ℚ :=
  (pdfCols env.cols env.sku_w env.desc_w).foldl
    (fun acc col =>
      let raw_text := cleanCellText (r.get env.cols col.source)
      let raw_text := if col.name = "Store\nNumber" then get_store_num raw_text else raw_text
      if col.name = "Qty" then
        match toNumeric raw_text with
        | some qty_val => qAdd acc qty_val
        | none => acc
      else acc) 0

/-! ### The pagination state machine -/

/-- Observable drawing/accounting events, in emission order.  `stamp`
records the accumulated `page_total_qty` at stamping time together with
the integer the code writes (`str(int(page_total_qty))`, lines 397 and
625); `boxRect` is a store-box rectangle segment (lines 456 and 602) with
the store it is drawn for and its top and bottom y; `entityAdd` is the
`entities_in_current_store_box.add(...)` call (line 538). -/
inductive Ev where
  | pageStart : Ev
  | stamp (raw : ℚ) (shown : Int) : Ev
  | rowDrawn (r : Row) : Ev
  | boxRect (store : Option String) (top bot : Int) : Ev
  | entityAdd (t : String × String × String) : Ev
  | gapLine (y : Int) : Ev
  | pageEnd : Ev
deriving DecidableEq, Repr

/-- The mutable pagination state (lines 302-311 plus the per-page cursor
and total).  `entities_in_current_store_box` models the Python set as a
duplicate-free list in insertion order. -/
structure MState where
  y_pos : Int
  page_total_qty : ℚ
  page_num : Nat
  current_store : Option String
  current_order : Option String
  current_job : Option String
  entities_in_current_store_box : List (String × String × String)
  store_start_y : Option Int
  is_continuing_store_box : Bool
  trace : List Ev
deriving DecidableEq, Repr

/-- `trigger_page_break_for_messages` (lines 390-406): stamp the current
page total, close the page, draw the next page's headers (cursor back to
`pageTopY`), reset the total. -/
def triggerPageBreakForMessages (st : MState) : MState :=
  let st := { st with trace := st.trace ++ [Ev.stamp st.page_total_qty (pyIntTrunc st.page_total_qty)] }
  let st := { st with trace := st.trace ++ [Ev.pageEnd], page_num := st.page_num + 1 }
  let st := { st with trace := st.trace ++ [Ev.pageStart], y_pos := pageTopY }
  { st with page_total_qty := 0 }

/-- The inner `for w_line in wrapped_lines` loop of `draw_message_block`
(lines 235-245): per wrapped line, break the page if the line would not
fit, then consume one line height. -/
def drawWrappedLines (lh bottom : Int) :
    List String → MState → Int → Bool → MState × Int × Bool
  | [], st, current_y, did => (st, current_y, did)
  | _w_line :: rest, st, current_y, did =>
    let stp :=
      if current_y - lh < bottom then
        let st := triggerPageBreakForMessages st
        (st, st.y_pos, true)
      else (st, current_y, did)
    drawWrappedLines lh bottom rest stp.1 (stp.2.1 - lh) stp.2.2

/-- The outer `for line in lines_to_draw` loop of `draw_message_block`
(lines 223-247): per message, break the page if needed, wrap the message
with the abstract splitter, then draw the wrapped lines. -/
def drawMessageLines (split : SplitFn) (fs lh dw bottom : Int) :
    List String → MState → Int → Bool → MState × Int × Bool
  | [], st, current_y, did => (st, current_y, did)
  | line :: rest, st, current_y, did =>
    let stp :=
      if current_y - lh < bottom then
        let st := triggerPageBreakForMessages st
        (st, st.y_pos, true)
      else (st, current_y, did)
    let wrapped_lines := split line CUSTOM_FONT_BOLD fs dw
    let stq := drawWrappedLines lh bottom wrapped_lines stp.1 stp.2.1 stp.2.2
    drawMessageLines split fs lh dw bottom rest stq.1 stq.2.1 stq.2.2

/-- `draw_message_block` (lines 209-249): returns the state, the final
cursor and the `did_page_break` flag.  On a non-empty message list the
cursor first moves down 5 pt (line 219). -/
def draw_message_block (split : SplitFn) (lines_to_draw : List String)
    (st : MState) (current_y : Int) (fs lh dw bottom : Int) : MState × Int × Bool :=
  if lines_to_draw.isEmpty then (st, current_y, false)
  else drawMessageLines split fs lh dw bottom lines_to_draw st (current_y - 500) false

/-- lines 453-465: close the previous store's box (padding then rectangle
from `store_start_y` down to the cursor) and draw its fragmentation
messages. -/
def closeStoreBox (env : Env) (st : MState) : MState :=
  let y := st.y_pos - store_padding
  let st := { st with
    y_pos := y
    trace := st.trace ++ [Ev.boxRect st.current_store ((st.store_start_y).getD 0) y] }
  let lines_to_draw := build_fragmentation_lines st.entities_in_current_store_box
      env.store_report_map env.sheet_name
  let r := draw_message_block env.split lines_to_draw st st.y_pos
      frag_msg_font_size frag_msg_line_height frag_msg_drawable_width page_bottom_margin_y
  { r.1 with y_pos := r.2.1 }

/-- lines 442-445: on the very first row of the sheet open the first store
group. -/
def openFirstStore (st : MState) (row : Row) : MState :=
  if st.current_store.isNone then
    { st with
      current_store := some row.store
      current_order := some row.order
      current_job := some row.job
      store_start_y := some st.y_pos
      y_pos := st.y_pos - store_padding }
  else st

/-- lines 524-590: draw one table row — log its (store, order, job) triple
into the open box's entity set (the `pd.notna` guard of line 537 included),
accumulate its quantity, and consume one row height. -/
def drawRow (env : Env) (st : MState) (row : Row) : MState :=
  let store_val := row.get env.cols env.cols.cost_center
  let order_val := row.get env.cols env.cols.order_number
  let job_val := row.get env.cols "Base Job Ticket Number"
  let st :=
    if pdNotNa store_val && pdNotNa order_val && pdNotNa job_val then
      let t := (pyStr store_val, pyStr order_val, pyStr job_val)
      { st with
        entities_in_current_store_box :=
          if t ∈ st.entities_in_current_store_box then st.entities_in_current_store_box
          else st.entities_in_current_store_box ++ [t]
        trace := st.trace ++ [Ev.entityAdd t] }
    else st
  let st := { st with page_total_qty := qAdd st.page_total_qty (rowQtyDelta env row) }
  { st with trace := st.trace ++ [Ev.rowDrawn row], y_pos := st.y_pos - row_height }

/-- The group-transition stage of one iteration of the row loop (step 1,
lines 447-512): close the previous store box and/or draw the gap for the
outermost key that changed.  `Sum.inl` means the transition was deferred
and the page ends (with the `is_continuing_store_box` mark it sets);
`Sum.inr` is the state in which the row is then drawn. -/
def gapStage (env : Env) (st : MState) (row : Row) : MState ⊕ MState :=
  if some row.store ≠ st.current_store then
    -- A. new store (lines 452-482)
    let st := closeStoreBox env st
    if st.y_pos - store_gap < page_bottom_content_area_y then
      Sum.inl { st with is_continuing_store_box := false }
    else
      let st := { st with
        trace := st.trace ++ [Ev.gapLine st.y_pos]
        y_pos := st.y_pos - store_gap }
      Sum.inr { st with
        current_store := some row.store
        current_order := some row.order
        current_job := some row.job
        store_start_y := some st.y_pos
        y_pos := st.y_pos - store_padding
        entities_in_current_store_box := [] }
  else if some row.order ≠ st.current_order then
    -- B. new order (lines 485-497)
    if st.y_pos - order_gap < page_bottom_content_area_y then
      Sum.inl { st with is_continuing_store_box := true }
    else
      let st := { st with
        trace := st.trace ++ [Ev.gapLine st.y_pos]
        y_pos := st.y_pos - order_gap }
      Sum.inr { st with current_order := some row.order, current_job := some row.job }
  else if some row.job ≠ st.current_job then
    -- C. new job (lines 500-512)
    if st.y_pos - job_gap < page_bottom_content_area_y then
      Sum.inl { st with is_continuing_store_box := true }
    else
      let st := { st with
        trace := st.trace ++ [Ev.gapLine st.y_pos]
        y_pos := st.y_pos - job_gap }
      Sum.inr { st with current_job := some row.job }
  else Sum.inr st

/-- The inner `for index in range(current_row_index, len(df_sheet))` loop
(lines 435-590).  Returns the final state and `some remaining` when the
page ended with `remaining` still to draw (`current_row_index = index`),
or `none` when every row was drawn. -/
def procRows (env : Env) : MState → List Row → MState × Option (List Row)
  | st, [] => (st, none)
  | st, row :: rest =>
    let st := openFirstStore st row
    match gapStage env st row with
    | Sum.inl st => (st, some (row :: rest))
    | Sum.inr st =>
      -- 2. row page-break check (lines 517-521)
      if st.y_pos - row_height < page_bottom_content_area_y then
        ({ st with is_continuing_store_box := true }, some (row :: rest))
      else
        -- 3. draw the row and continue
        procRows env (drawRow env st row) rest

/-- Page setup of one outer iteration (lines 409-429): bump the page
number, draw the headers (`draw_new_page_headers` leaves the cursor at
`pageTopY`), reset the page total, apply the header gap, and reopen a
continuing store box. -/
def pageSetup (st : MState) : MState :=
  let st := { st with page_num := st.page_num + 1 }
  let st := { st with trace := st.trace ++ [Ev.pageStart], y_pos := pageTopY }
  let st := { st with page_total_qty := 0 }
  let st := { st with y_pos := st.y_pos - header_gap }
  if st.is_continuing_store_box then
    { st with
      store_start_y := some st.y_pos
      y_pos := st.y_pos - store_padding
      is_continuing_store_box := false }
  else st

/-- End-of-page processing (lines 594-629): close the box for the last
item on the page, draw the final box's messages when every row was drawn
(`rem = none`), stamp the page total, `showPage`. -/
def endOfPage (env : Env) (st : MState) (rem : Option (List Row)) : MState :=
  let y := st.y_pos - store_padding
  let st := { st with
    y_pos := y
    trace := st.trace ++ [Ev.boxRect st.current_store ((st.store_start_y).getD 0) y] }
  let st :=
    match rem with
    | none =>
      -- lines 605-615: all rows done, draw the last box's messages
      let lines_to_draw := build_fragmentation_lines st.entities_in_current_store_box
          env.store_report_map env.sheet_name
      let r := draw_message_block env.split lines_to_draw st st.y_pos
          frag_msg_font_size frag_msg_line_height frag_msg_drawable_width page_bottom_margin_y
      { r.1 with y_pos := r.2.1 }
    | some _ => st
  -- lines 620-627: stamp the page total, then showPage (line 629)
  let st := { st with trace := st.trace ++ [Ev.stamp st.page_total_qty (pyIntTrunc st.page_total_qty)] }
  { st with trace := st.trace ++ [Ev.pageEnd] }

/-- One iteration of the outer `while current_row_index < len(df_sheet)`
loop (lines 408-629): page setup, the row loop, then end-of-page
processing. -/
def runPage (env : Env) (st : MState) (rows : List Row) : MState × Option (List Row) :=
  let st := pageSetup st
  let pr := procRows env st rows
  (endOfPage env pr.1 pr.2, pr.2)

/-- The outer pagination loop, driven by fuel (the source's `while` loop
can in principle re-enter the same configuration, so termination is not
structural).  `none` means the fuel ran out. -/
def paginate (env : Env) : Nat → MState → List Row → Option MState
  | 0, st, rows => if rows.isEmpty then some st else none
  | fuel + 1, st, rows =>
    if rows.isEmpty then some st
    else
      let pr := runPage env st rows
      match pr.2 with
      | none => some pr.1
      | some rem => paginate env fuel pr.1 rem

/-- The per-sheet initial state (lines 302-311). -/
def initState : MState :=
  { y_pos := 0, page_total_qty := 0, page_num := 0,
    current_store := none, current_order := none, current_job := none,
    entities_in_current_store_box := [], store_start_y := none,
    is_continuing_store_box := false, trace := [] }

/-- Paginate one sheet from the initial state. -/
def runSheet (env : Env) (fuel : Nat) (rows : List Row) : Option MState :=
  paginate env fuel initState rows

/-! ### Trace observations -/

/-- The rows drawn, in drawing order. -/
def drawnRows (t : List Ev) : List Row :=
  t.filterMap fun e => match e with | .rowDrawn r => some r | _ => none

/-- The accumulated totals at the stamping moments, in stamping order. -/
def stampRaws (t : List Ev) : List ℚ :=
  t.filterMap fun e => match e with | .stamp q _ => some q | _ => none

/-- The integers actually written into the header total cells. -/
def stampShowns (t : List Ev) : List Int :=
  t.filterMap fun e => match e with | .stamp _ n => some n | _ => none

/-- Sum of the stamped accumulated totals. -/
def stampRawSum (t : List Ev) : ℚ := (stampRaws t).sum

/-- Number of `stamp` events. -/
def stampCount (t : List Ev) : Nat :=
  t.countP fun e => match e with | .stamp _ _ => true | _ => false

/-- Number of `pageStart` events. -/
def pageStartCount (t : List Ev) : Nat :=
  t.countP fun e => match e with | .pageStart => true | _ => false

/-- Number of store-box rectangle segments drawn for store `s`. -/
def rectsFor (s : String) (t : List Ev) : Nat :=
  t.countP fun e => match e with | .boxRect st _ _ => st = some s | _ => false

/-- Number of pages on which at least one row of store `s` is drawn. -/
def pagesContaining (s : String) (t : List Ev) : Nat :=
  (t.foldl (fun (acc : Nat × Bool) e =>
    match e with
    | .pageStart => (acc.1, false)
    | .rowDrawn r => if r.store = s && !acc.2 then (acc.1 + 1, true) else acc
    | _ => acc) ((0 : Nat), false)).1

/-- The (store, order, job) triple the entity logger of lines 533-538
records for a row: `str` of the values fetched from the three key columns. -/
def loggedTriple (c : ColNames) (r : Row) : String × String × String :=
  (pyStr (r.get c c.cost_center), pyStr (r.get c c.order_number),
    pyStr (r.get c "Base Job Ticket Number"))

/-- A configuration whose three key columns have pairwise distinct names
(the normal situation; the three lookups then land on the three key
fields). -/
def ColNames.keysDistinct (c : ColNames) : Prop :=
  c.order_number ≠ c.cost_center ∧
  "Base Job Ticket Number" ≠ c.cost_center ∧
  "Base Job Ticket Number" ≠ c.order_number

/-! ### The message/page-break machinery only does page bookkeeping -/

/-- The trace delta of the message drawer and its page-break callback
contains no rows, no rectangles and no entity logs, every stamp it emits
carries the truncated total, the quantity invariant
`stamped-so-far + pending page total` is preserved, and page starts stay
balanced with stamps. -/
def MsgQuiet (st st' : MState) : Prop :=
  (∃ d, st'.trace = st.trace ++ d ∧
    (∀ r : Row, Ev.rowDrawn r ∉ d) ∧
    (∀ s top bot, Ev.boxRect s top bot ∉ d) ∧
    (∀ t, Ev.entityAdd t ∉ d) ∧
    (∀ q n, Ev.stamp q n ∈ d → n = pyIntTrunc q)) ∧
  stampRawSum st'.trace + st'.page_total_qty
    = stampRawSum st.trace + st.page_total_qty ∧
  pageStartCount st'.trace + stampCount st.trace
    = stampCount st'.trace + pageStartCount st.trace

/-! ### The gap stage and the row loop -/

/-- Every store-box rectangle in the trace has its bottom edge at or above
the printable bottom margin. -/
def RectsBounded (t : List Ev) : Prop :=
  ∀ s top bot, Ev.boxRect s top bot ∈ t → margin ≤ bot

/-! ### Concrete fixtures used by witnesses and counterexamples -/

/-- A configuration with distinct column names. -/
def colsW : ColNames := ⟨"JT", "QTY", "ON", "CC", "PID", "SKU", "PD"⟩

/-- A text splitter that never wraps. -/
def splitW : SplitFn := fun s _ _ _ => [s]

/-- Environment: sheet "SheetA", empty fragmentation map. -/
def envW : Env := ⟨splitW, colsW, 13500, 13500, "SheetA", []⟩

/-- A row with the given keys and quantity string. -/
def rowW (sid oid jid q : String) : Row := ⟨sid, oid, jid, [("QTY", CellVal.str q)]⟩

/-- The three-row scenario of spec §8. -/
def sheet3 : List Row :=
  [rowW "100" "1" "1" "5", rowW "100" "1" "2" "3", rowW "200" "2" "3" "7"]

/-- Result state of paginating `sheet3`. -/
def stW3 : MState := (runSheet envW 5 sheet3).getD initState

/-- 60 rows of store A fill page one exactly to the zone where the store
gap for the incoming store B no longer fits: the store transition is
deferred. -/
def sheetC5x : List Row := (List.replicate 60 (rowW "A" "1" "1" "1")) ++ [rowW "B" "2" "2" "1"]

/-- Result state of paginating `sheetC5x`. -/
def stC5x : MState := (runSheet envW 9 sheetC5x).getD initState

/-- 70 rows of one store: a plain row-overflow continuation onto page 2. -/
def sheetC5b : List Row := List.replicate 70 (rowW "A" "1" "1" "1")

/-- Result state of paginating `sheetC5b`. -/
def stC5b : MState := (runSheet envW 9 sheetC5b).getD initState

/-- One row with the non-integral quantity 2.5. -/
def sheetC9 : List Row := [rowW "A" "1" "1" "2.5"]

/-- Result state of paginating `sheetC9`. -/
def stC9 : MState := (runSheet envW 5 sheetC9).getD initState

/-- A row whose store key is null before `astype(str)`. -/
def rawNull : RawRow := ⟨CellVal.na, CellVal.str "1", CellVal.str "J", [("QTY", CellVal.str "2")]⟩

/-- A fragmentation map keyed by the stringified null store `"nan"`. -/
def mapNan : StoreReportMap := [("nan", ⟨true, ["SheetB"], []⟩)]

/-- Environment with `mapNan`. -/
def envNan : Env := ⟨splitW, colsW, 13500, 13500, "SheetA", mapNan⟩

/-- Result state of paginating the stringified null-key row. -/
def stNan : MState := (runSheet envNan 3 [prepRow rawNull]).getD initState

/-- The Store Number column spec. -/
def storeColW : ColSpec := ⟨"Store\nNumber", "CC", 5400, Align.center⟩

/-- Store 5001 fragmented to SheetB (the spec example). -/
def mapW5001 : StoreReportMap := [("5001", ⟨true, ["SheetB"], []⟩)]

/-- Store 5001 fragmented, destination list `[""]`. -/
def mapEmptyDest : StoreReportMap := [("5001", ⟨true, [""], []⟩)]

/-- Store 5001 fragmented to SheetB with order O1 and job J1 both flagged
under the spec's per-level key `is_fragmented`. -/
def mapC3 : StoreReportMap :=
  [("5001", ⟨true, ["SheetB"],
    [("O1", ⟨true, [("J1", [("is_fragmented", true)])]⟩)]⟩)]

theorem qAdd_eq (a b : ℚ) : qAdd a b = a + b := by
  unfold qAdd
  rw [Rat.mkRat_eq_div]
  push_cast
  conv_rhs => rw [← Rat.num_div_den a, ← Rat.num_div_den b]
  have ha : (a.den : ℚ) ≠ 0 := by positivity
  have hb : (b.den : ℚ) ≠ 0 := by positivity
  field_simp

theorem qNeg_eq (a : ℚ) : qNeg a = -a := by
  unfold qNeg
  rw [Rat.mkRat_eq_div]
  push_cast
  rw [neg_div, Rat.num_div_den]

theorem mem_insertStr {x a : String} {l : List String} :
    x ∈ insertStr a l ↔ x = a ∨ x ∈ l := by
  induction l with
  | nil => simp [insertStr]
  | cons b bs ih =>
    by_cases h : pyStrLe a b
    · simp [insertStr, h]
    · simp [insertStr, h, ih]
      tauto

theorem mem_pySorted {x : String} {l : List String} :
    x ∈ pySorted l ↔ x ∈ l := by
  induction l with
  | nil => simp [pySorted]
  | cons a as ih => simp [pySorted, mem_insertStr, ih]

theorem mem_dedupKeepLast {x : String} {l : List String} :
    x ∈ dedupKeepLast l ↔ x ∈ l := by
  induction l with
  | nil => simp [dedupKeepLast]
  | cons a as ih =>
    by_cases h : a ∈ as
    · have hd : dedupKeepLast (a :: as) = dedupKeepLast as := by
        simp [dedupKeepLast, h]
      rw [hd, ih, List.mem_cons]
      constructor
      · exact Or.inr
      · rintro (rfl | hx)
        · exact h
        · exact hx
    · have hd : dedupKeepLast (a :: as) = a :: dedupKeepLast as := by
        simp [dedupKeepLast, h]
      rw [hd, List.mem_cons, ih, List.mem_cons]

theorem mem_build_fragmentation_lines
    {m : StoreReportMap} {sheet msg : String}
    {ents : List (String × String × String)} :
    msg ∈ build_fragmentation_lines ents m sheet ↔
      ∃ e ∈ ents, entityMsg m sheet e = some msg := by
  unfold build_fragmentation_lines
  rw [mem_pySorted, mem_dedupKeepLast, List.mem_filterMap]

/-! ### Basic lemmas about traces and the row step -/

theorem drawnRows_append (a b : List Ev) :
    drawnRows (a ++ b) = drawnRows a ++ drawnRows b := by
  simp [drawnRows]

theorem stampRaws_append (a b : List Ev) :
    stampRaws (a ++ b) = stampRaws a ++ stampRaws b := by
  simp [stampRaws]

theorem stampShowns_append (a b : List Ev) :
    stampShowns (a ++ b) = stampShowns a ++ stampShowns b := by
  simp [stampShowns]

theorem stampRawSum_append (a b : List Ev) :
    stampRawSum (a ++ b) = stampRawSum a + stampRawSum b := by
  simp [stampRawSum, stampRaws_append]

theorem stampCount_append (a b : List Ev) :
    stampCount (a ++ b) = stampCount a + stampCount b := by
  simp [stampCount, List.countP_append]

theorem pageStartCount_append (a b : List Ev) :
    pageStartCount (a ++ b) = pageStartCount a + pageStartCount b := by
  simp [pageStartCount, List.countP_append]

theorem Row.get_cost_center (r : Row) (c : ColNames) :
    r.get c c.cost_center = .str r.store := by
  simp [Row.get]

theorem Row.get_order_number (r : Row) (c : ColNames)
    (h : c.order_number ≠ c.cost_center) :
    r.get c c.order_number = .str r.order := by
  simp [Row.get, h]

theorem Row.get_base_job (r : Row) (c : ColNames)
    (h1 : "Base Job Ticket Number" ≠ c.cost_center)
    (h2 : "Base Job Ticket Number" ≠ c.order_number) :
    r.get c "Base Job Ticket Number" = .str r.job := by
  simp [Row.get, h1, h2]

theorem loggedTriple_eq (c : ColNames) (r : Row) (h : c.keysDistinct) :
    loggedTriple c r = (r.store, r.order, r.job) := by
  obtain ⟨h1, h2, h3⟩ := h
  simp [loggedTriple, Row.get_cost_center, Row.get_order_number r c h1,
    Row.get_base_job r c h2 h3, pyStr]

theorem pdNotNa_get_cost_center (r : Row) (c : ColNames) :
    pdNotNa (r.get c c.cost_center) = true := by
  simp [Row.get, pdNotNa]

theorem pdNotNa_get_order_number (r : Row) (c : ColNames) :
    pdNotNa (r.get c c.order_number) = true := by
  unfold Row.get
  by_cases h : c.order_number = c.cost_center <;> simp [h, pdNotNa]

theorem pdNotNa_get_base_job (r : Row) (c : ColNames) :
    pdNotNa (r.get c "Base Job Ticket Number") = true := by
  unfold Row.get
  by_cases h1 : ("Base Job Ticket Number" : String) = c.cost_center <;>
    by_cases h2 : ("Base Job Ticket Number" : String) = c.order_number <;>
      by_cases h0 : c.order_number = c.cost_center <;>
        simp [h0, h1, h2, pdNotNa]

/-- The three guard values of line 537 are strings, so the `pd.notna`
guard always passes and `drawRow` logs the triple, adds the row's
quantity, draws the row and consumes one row height. -/
theorem drawRow_fields (env : Env) (st : MState) (row : Row) :
    (drawRow env st row).trace
        = st.trace ++ [Ev.entityAdd (loggedTriple env.cols row), Ev.rowDrawn row] ∧
    (drawRow env st row).page_total_qty = st.page_total_qty + rowQtyDelta env row ∧
    (drawRow env st row).y_pos = st.y_pos - row_height ∧
    (drawRow env st row).current_store = st.current_store ∧
    (drawRow env st row).current_order = st.current_order ∧
    (drawRow env st row).current_job = st.current_job ∧
    (drawRow env st row).store_start_y = st.store_start_y ∧
    (drawRow env st row).is_continuing_store_box = st.is_continuing_store_box ∧
    (drawRow env st row).page_num = st.page_num ∧
    ((loggedTriple env.cols row) ∈ (drawRow env st row).entities_in_current_store_box) := by
  unfold drawRow
  simp only [pdNotNa_get_cost_center, pdNotNa_get_order_number, pdNotNa_get_base_job,
    Bool.true_and, Bool.and_self, eq_self_iff_true, if_true, qAdd_eq, loggedTriple]
  refine ⟨by simp, trivial, trivial, trivial, trivial, trivial, trivial, trivial, trivial, ?_⟩
  by_cases ht : (pyStr (row.get env.cols env.cols.cost_center),
      pyStr (row.get env.cols env.cols.order_number),
      pyStr (row.get env.cols "Base Job Ticket Number"))
      ∈ st.entities_in_current_store_box <;> simp [ht]

theorem MsgQuiet.rfl (st : MState) : MsgQuiet st st :=
  ⟨⟨[], by simp, by simp, by simp, by simp, by simp⟩, by ring, by ring⟩

theorem MsgQuiet.trans {a b c : MState} (h1 : MsgQuiet a b) (h2 : MsgQuiet b c) :
    MsgQuiet a c := by
  obtain ⟨⟨d1, ht1, hr1, hb1, he1, hs1⟩, hq1, hc1⟩ := h1
  obtain ⟨⟨d2, ht2, hr2, hb2, he2, hs2⟩, hq2, hc2⟩ := h2
  refine ⟨⟨d1 ++ d2, by rw [ht2, ht1, List.append_assoc], ?_, ?_, ?_, ?_⟩,
    by linarith, by omega⟩
  · intro r hr
    rcases List.mem_append.mp hr with h | h
    · exact hr1 r h
    · exact hr2 r h
  · intro s top bot hr
    rcases List.mem_append.mp hr with h | h
    · exact hb1 s top bot h
    · exact hb2 s top bot h
  · intro t hr
    rcases List.mem_append.mp hr with h | h
    · exact he1 t h
    · exact he2 t h
  · intro q n hr
    rcases List.mem_append.mp hr with h | h
    · exact hs1 q n h
    · exact hs2 q n h

theorem triggerPageBreak_msgQuiet (st : MState) :
    MsgQuiet st (triggerPageBreakForMessages st) := by
  unfold triggerPageBreakForMessages
  refine ⟨⟨[Ev.stamp st.page_total_qty (pyIntTrunc st.page_total_qty), Ev.pageEnd,
      Ev.pageStart], by simp, by simp, by simp, by simp, ?_⟩, ?_, ?_⟩
  · intro q n hr
    simp only [List.mem_cons, List.mem_singleton] at hr
    rcases hr with h | h | h
    · obtain ⟨hq, hn⟩ := Ev.stamp.inj h
      rw [hn, hq]
    · exact absurd h (by simp)
    · exact absurd h (by simp)
  · simp [stampRawSum_append, stampRawSum, stampRaws]
  · simp only [stampCount_append, pageStartCount_append]
    simp [stampCount, pageStartCount]
    omega

theorem triggerPageBreak_y (st : MState) :
    (triggerPageBreakForMessages st).y_pos = pageTopY := rfl

theorem drawWrappedLines_msgQuiet (lh bottom : Int) (ls : List String) :
    ∀ (st : MState) (y : Int) (did : Bool),
      MsgQuiet st (drawWrappedLines lh bottom ls st y did).1 := by
  induction ls with
  | nil => intro st y did; exact MsgQuiet.rfl st
  | cons w rest ih =>
    intro st y did
    unfold drawWrappedLines
    by_cases h : y - lh < bottom
    · simp only [h, if_true]
      exact MsgQuiet.trans (triggerPageBreak_msgQuiet st) (ih _ _ _)
    · simp only [h, if_false]
      exact ih _ _ _

theorem drawMessageLines_msgQuiet (split : SplitFn) (fs lh dw bottom : Int)
    (ls : List String) :
    ∀ (st : MState) (y : Int) (did : Bool),
      MsgQuiet st (drawMessageLines split fs lh dw bottom ls st y did).1 := by
  induction ls with
  | nil => intro st y did; exact MsgQuiet.rfl st
  | cons line rest ih =>
    intro st y did
    unfold drawMessageLines
    by_cases h : y - lh < bottom
    · simp only [h, if_true]
      exact MsgQuiet.trans (triggerPageBreak_msgQuiet st)
        (MsgQuiet.trans (drawWrappedLines_msgQuiet _ _ _ _ _ _) (ih _ _ _))
    · simp only [h, if_false]
      exact MsgQuiet.trans (drawWrappedLines_msgQuiet _ _ _ _ _ _) (ih _ _ _)

theorem draw_message_block_msgQuiet (split : SplitFn) (ls : List String)
    (st : MState) (y fs lh dw bottom : Int) :
    MsgQuiet st (draw_message_block split ls st y fs lh dw bottom).1 := by
  unfold draw_message_block
  by_cases h : ls.isEmpty
  · simp only [h, if_true]
    exact MsgQuiet.rfl st
  · simp only [h, if_false]
    exact drawMessageLines_msgQuiet _ _ _ _ _ _ _ _ _

/-! Geometry constants, evaluated. -/

theorem pageTopY_eval : pageTopY = 107100 := by decide
theorem page_bottom_margin_y_eval : page_bottom_margin_y = 6300 := by decide
theorem page_bottom_content_area_y_eval : page_bottom_content_area_y = 9900 := by decide
theorem frag_msg_line_height_eval : frag_msg_line_height = 1820 := by decide
theorem row_height_eval : row_height = 1584 := by decide
theorem store_padding_eval : store_padding = 500 := by decide
theorem store_gap_eval : store_gap = 1584 := by decide
theorem order_gap_eval : order_gap = 1584 := by decide
theorem job_gap_eval : job_gap = 1584 := by decide
theorem header_gap_eval : header_gap = 1584 := by decide
theorem margin_eval : margin = 2700 := by decide

theorem drawWrappedLines_y (ls : List String) :
    ∀ (st : MState) (y : Int) (did : Bool),
      min y page_bottom_margin_y
        ≤ (drawWrappedLines frag_msg_line_height page_bottom_margin_y ls st y did).2.1 := by
  induction ls with
  | nil => intro st y did; simp [drawWrappedLines, min_le_left]
  | cons w rest ih =>
    intro st y did
    unfold drawWrappedLines
    by_cases h : y - frag_msg_line_height < page_bottom_margin_y
    · simp only [h, if_true]
      refine le_trans ?_ (ih _ _ _)
      rw [triggerPageBreak_y, pageTopY_eval, page_bottom_margin_y_eval,
        frag_msg_line_height_eval] at *
      omega
    · simp only [h, if_false]
      refine le_trans ?_ (ih _ _ _)
      rw [page_bottom_margin_y_eval, frag_msg_line_height_eval] at *
      omega

theorem drawMessageLines_y (split : SplitFn) (fs dw : Int) (ls : List String) :
    ∀ (st : MState) (y : Int) (did : Bool),
      min y page_bottom_margin_y
        ≤ (drawMessageLines split fs frag_msg_line_height dw page_bottom_margin_y
            ls st y did).2.1 := by
  induction ls with
  | nil => intro st y did; simp [drawMessageLines, min_le_left]
  | cons line rest ih =>
    intro st y did
    unfold drawMessageLines
    by_cases h : y - frag_msg_line_height < page_bottom_margin_y
    · simp only [h, if_true]
      set stq := drawWrappedLines frag_msg_line_height page_bottom_margin_y
        (split line CUSTOM_FONT_BOLD fs dw) (triggerPageBreakForMessages st)
        (triggerPageBreakForMessages st).y_pos true with hstq
      have hw : min (triggerPageBreakForMessages st).y_pos page_bottom_margin_y
          ≤ stq.2.1 := by
        rw [hstq]
        exact drawWrappedLines_y _ _ _ _
      have hih := ih stq.1 stq.2.1 stq.2.2
      rw [triggerPageBreak_y, pageTopY_eval] at hw
      rw [page_bottom_margin_y_eval] at hw hih ⊢
      omega
    · simp only [h, if_false]
      set stq := drawWrappedLines frag_msg_line_height page_bottom_margin_y
        (split line CUSTOM_FONT_BOLD fs dw) st y did with hstq
      have hw : min y page_bottom_margin_y ≤ stq.2.1 := by
        rw [hstq]
        exact drawWrappedLines_y _ _ _ _
      have hih := ih stq.1 stq.2.1 stq.2.2
      rw [page_bottom_margin_y_eval] at hw hih ⊢
      omega

theorem draw_message_block_y (split : SplitFn) (ls : List String)
    (st : MState) (y fs dw : Int)
    (hy : page_bottom_margin_y + 500 ≤ y) :
    page_bottom_margin_y
      ≤ (draw_message_block split ls st y fs frag_msg_line_height dw
          page_bottom_margin_y).2.1 := by
  unfold draw_message_block
  by_cases h : ls.isEmpty = true
  · rw [if_pos h]
    show page_bottom_margin_y ≤ y
    omega
  · rw [if_neg h]
    have hw := drawMessageLines_y split fs dw ls st (y - 500) false
    rw [page_bottom_margin_y_eval] at *
    omega

/-! ### Closing a store box -/

theorem closeStoreBox_spec (env : Env) (st : MState) :
    (∃ d, (closeStoreBox env st).trace = st.trace
        ++ Ev.boxRect st.current_store ((st.store_start_y).getD 0)
            (st.y_pos - store_padding) :: d ∧
      (∀ r : Row, Ev.rowDrawn r ∉ d) ∧
      (∀ s top bot, Ev.boxRect s top bot ∉ d) ∧
      (∀ t, Ev.entityAdd t ∉ d) ∧
      (∀ q n, Ev.stamp q n ∈ d → n = pyIntTrunc q)) ∧
    stampRawSum (closeStoreBox env st).trace + (closeStoreBox env st).page_total_qty
      = stampRawSum st.trace + st.page_total_qty ∧
    pageStartCount (closeStoreBox env st).trace + stampCount st.trace
      = stampCount (closeStoreBox env st).trace + pageStartCount st.trace := by
  unfold closeStoreBox
  have hq := draw_message_block_msgQuiet env.split
    (build_fragmentation_lines st.entities_in_current_store_box env.store_report_map
      env.sheet_name)
    { st with
        y_pos := st.y_pos - store_padding
        trace := st.trace ++ [Ev.boxRect st.current_store ((st.store_start_y).getD 0)
          (st.y_pos - store_padding)] }
    (st.y_pos - store_padding) frag_msg_font_size frag_msg_line_height
    frag_msg_drawable_width page_bottom_margin_y
  obtain ⟨⟨d, hd, hr, hb, he, hs⟩, hqq, hcc⟩ := hq
  simp only [stampRawSum_append, stampCount_append, pageStartCount_append] at hqq hcc
  refine ⟨⟨d, ?_, hr, hb, he, hs⟩, ?_, ?_⟩
  · simp only at hd
    rw [hd]
    simp
  · simp only at hqq ⊢
    simp only [stampRawSum, stampRaws, List.filterMap] at hqq ⊢
    simp at hqq
    simp [stampRawSum_append] at *
    linarith [hqq]
  · simp only at hcc ⊢
    simp [stampCount_append, pageStartCount_append, stampCount, pageStartCount] at *
    omega

theorem closeStoreBox_y (env : Env) (st : MState) (hy : 7300 ≤ st.y_pos) :
    page_bottom_margin_y ≤ (closeStoreBox env st).y_pos := by
  unfold closeStoreBox
  have hb := draw_message_block_y env.split
    (build_fragmentation_lines st.entities_in_current_store_box env.store_report_map
      env.sheet_name)
    { st with
        y_pos := st.y_pos - store_padding
        trace := st.trace ++ [Ev.boxRect st.current_store ((st.store_start_y).getD 0)
          (st.y_pos - store_padding)] }
    (st.y_pos - store_padding) frag_msg_font_size frag_msg_drawable_width
    (by rw [page_bottom_margin_y_eval, store_padding_eval] at *; omega)
  exact hb

theorem openFirstStore_fields (st : MState) (row : Row) :
    (openFirstStore st row).trace = st.trace ∧
    (openFirstStore st row).page_total_qty = st.page_total_qty := by
  unfold openFirstStore
  split <;> exact ⟨rfl, rfl⟩

theorem openFirstStore_y (st : MState) (row : Row) :
    (openFirstStore st row).y_pos = st.y_pos ∨
    (openFirstStore st row).y_pos = st.y_pos - store_padding := by
  unfold openFirstStore
  split
  · exact Or.inr rfl
  · exact Or.inl rfl

theorem stampRawSum_gapLine (y : Int) : stampRawSum [Ev.gapLine y] = 0 := by
  simp [stampRawSum, stampRaws]

theorem stampCount_gapLine (y : Int) : stampCount [Ev.gapLine y] = 0 := by
  simp [stampCount]

theorem pageStartCount_gapLine (y : Int) : pageStartCount [Ev.gapLine y] = 0 := by
  simp [pageStartCount]

theorem gapStage_quiet (env : Env) (st : MState) (row : Row) (st' : MState)
    (hst' : gapStage env st row = Sum.inl st' ∨ gapStage env st row = Sum.inr st') :
    (∃ d, st'.trace = st.trace ++ d ∧
      (∀ r : Row, Ev.rowDrawn r ∉ d) ∧
      (∀ t, Ev.entityAdd t ∉ d) ∧
      (∀ q n, Ev.stamp q n ∈ d → n = pyIntTrunc q)) ∧
    stampRawSum st'.trace + st'.page_total_qty
      = stampRawSum st.trace + st.page_total_qty ∧
    pageStartCount st'.trace + stampCount st.trace
      = stampCount st'.trace + pageStartCount st.trace := by
  unfold gapStage at hst'
  by_cases h1 : some row.store ≠ st.current_store
  · rw [if_pos h1] at hst'
    obtain ⟨⟨d, hd, hr, hb2, he, hs⟩, hq, hc⟩ := closeStoreBox_spec env st
    by_cases h2 : (closeStoreBox env st).y_pos - store_gap < page_bottom_content_area_y
    · rw [if_pos h2] at hst'
      have hst : st' = { closeStoreBox env st with is_continuing_store_box := false } := by
        rcases hst' with h | h
        · exact (Sum.inl.inj h).symm
        · exact absurd h (by simp)
      subst hst
      refine ⟨⟨Ev.boxRect st.current_store ((st.store_start_y).getD 0)
          (st.y_pos - store_padding) :: d, ?_, ?_, ?_, ?_⟩, ?_, ?_⟩
      · show (closeStoreBox env st).trace = _
        rw [hd]
      · intro r hmem
        rcases List.mem_cons.mp hmem with h | h
        · exact absurd h (by simp)
        · exact hr r h
      · intro t hmem
        rcases List.mem_cons.mp hmem with h | h
        · exact absurd h (by simp)
        · exact he t h
      · intro q n hmem
        rcases List.mem_cons.mp hmem with h | h
        · exact absurd h (by simp)
        · exact hs q n h
      · exact hq
      · exact hc
    · rw [if_neg h2] at hst'
      have hst : st' = { closeStoreBox env st with
          trace := (closeStoreBox env st).trace
            ++ [Ev.gapLine (closeStoreBox env st).y_pos]
          y_pos := (closeStoreBox env st).y_pos - store_gap - store_padding
          current_store := some row.store
          current_order := some row.order
          current_job := some row.job
          store_start_y := some ((closeStoreBox env st).y_pos - store_gap)
          entities_in_current_store_box := [] } := by
        rcases hst' with h | h
        · exact absurd h (by simp)
        · exact (Sum.inr.inj h).symm
      subst hst
      refine ⟨⟨Ev.boxRect st.current_store ((st.store_start_y).getD 0)
          (st.y_pos - store_padding) :: d
            ++ [Ev.gapLine (closeStoreBox env st).y_pos], ?_, ?_, ?_, ?_⟩, ?_, ?_⟩
      · show (closeStoreBox env st).trace ++ _ = _
        rw [hd]
        simp
      · intro r hmem
        rcases List.mem_append.mp hmem with h | h
        · rcases List.mem_cons.mp h with h | h
          · exact absurd h (by simp)
          · exact hr r h
        · exact absurd h (by simp)
      · intro t hmem
        rcases List.mem_append.mp hmem with h | h
        · rcases List.mem_cons.mp h with h | h
          · exact absurd h (by simp)
          · exact he t h
        · exact absurd h (by simp)
      · intro q n hmem
        rcases List.mem_append.mp hmem with h | h
        · rcases List.mem_cons.mp h with h | h
          · exact absurd h (by simp)
          · exact hs q n h
        · exact absurd h (by simp)
      · show stampRawSum ((closeStoreBox env st).trace
              ++ [Ev.gapLine (closeStoreBox env st).y_pos])
            + (closeStoreBox env st).page_total_qty
            = stampRawSum st.trace + st.page_total_qty
        rw [stampRawSum_append, stampRawSum_gapLine]
        linarith [hq]
      · show pageStartCount ((closeStoreBox env st).trace
              ++ [Ev.gapLine (closeStoreBox env st).y_pos]) + stampCount st.trace
            = stampCount ((closeStoreBox env st).trace
              ++ [Ev.gapLine (closeStoreBox env st).y_pos]) + pageStartCount st.trace
        rw [pageStartCount_append, stampCount_append, pageStartCount_gapLine,
          stampCount_gapLine]
        omega
  · rw [if_neg h1] at hst'
    have hbase : ∀ stx : MState, st' = stx
        → stx.trace = st.trace
        → stx.page_total_qty = st.page_total_qty
        → (∃ d, st'.trace = st.trace ++ d ∧
            (∀ r : Row, Ev.rowDrawn r ∉ d) ∧
            (∀ t, Ev.entityAdd t ∉ d) ∧
            (∀ q n, Ev.stamp q n ∈ d → n = pyIntTrunc q)) ∧
          stampRawSum st'.trace + st'.page_total_qty
            = stampRawSum st.trace + st.page_total_qty ∧
          pageStartCount st'.trace + stampCount st.trace
            = stampCount st'.trace + pageStartCount st.trace := by
      intro stx hst ht hqx
      subst hst
      rw [ht, hqx]
      exact ⟨⟨[], by simp, by simp, by simp, by simp⟩, by ring, by ring⟩
    have hgap : ∀ stx : MState, st' = stx
        → stx.trace = st.trace ++ [Ev.gapLine st.y_pos]
        → stx.page_total_qty = st.page_total_qty
        → (∃ d, st'.trace = st.trace ++ d ∧
            (∀ r : Row, Ev.rowDrawn r ∉ d) ∧
            (∀ t, Ev.entityAdd t ∉ d) ∧
            (∀ q n, Ev.stamp q n ∈ d → n = pyIntTrunc q)) ∧
          stampRawSum st'.trace + st'.page_total_qty
            = stampRawSum st.trace + st.page_total_qty ∧
          pageStartCount st'.trace + stampCount st.trace
            = stampCount st'.trace + pageStartCount st.trace := by
      intro stx hst ht hqx
      subst hst
      rw [ht, hqx]
      refine ⟨⟨[Ev.gapLine st.y_pos], rfl, by simp, by simp, by simp⟩, ?_, ?_⟩
      · rw [stampRawSum_append, stampRawSum_gapLine]
        ring
      · rw [pageStartCount_append, stampCount_append, pageStartCount_gapLine,
          stampCount_gapLine]
        omega
    by_cases h3 : some row.order ≠ st.current_order
    · rw [if_pos h3] at hst'
      by_cases h4 : st.y_pos - order_gap < page_bottom_content_area_y
      · rw [if_pos h4] at hst'
        rcases hst' with h | h
        · exact hbase _ (Sum.inl.inj h).symm rfl rfl
        · exact absurd h (by simp)
      · rw [if_neg h4] at hst'
        rcases hst' with h | h
        · exact absurd h (by simp)
        · exact hgap _ (Sum.inr.inj h).symm rfl rfl
    · rw [if_neg h3] at hst'
      by_cases h5 : some row.job ≠ st.current_job
      · rw [if_pos h5] at hst'
        by_cases h6 : st.y_pos - job_gap < page_bottom_content_area_y
        · rw [if_pos h6] at hst'
          rcases hst' with h | h
          · exact hbase _ (Sum.inl.inj h).symm rfl rfl
          · exact absurd h (by simp)
        · rw [if_neg h6] at hst'
          rcases hst' with h | h
          · exact absurd h (by simp)
          · exact hgap _ (Sum.inr.inj h).symm rfl rfl
      · rw [if_neg h5] at hst'
        rcases hst' with h | h
        · exact absurd h (by simp)
        · exact hbase _ (Sum.inr.inj h).symm rfl rfl

theorem RectsBounded_append {a b : List Ev}
    (ha : RectsBounded a) (hb : RectsBounded b) : RectsBounded (a ++ b) := by
  intro s top bot hmem
  rcases List.mem_append.mp hmem with h | h
  · exact ha s top bot h
  · exact hb s top bot h

theorem RectsBounded_nil : RectsBounded [] := by
  intro s top bot hmem
  exact absurd hmem (by simp)

theorem drawnRows_eq_nil {d : List Ev} (h : ∀ r : Row, Ev.rowDrawn r ∉ d) :
    drawnRows d = [] := by
  refine List.filterMap_eq_nil_iff.mpr ?_
  intro e hmem
  cases e with
  | rowDrawn r => exact absurd hmem (h r)
  | pageStart => rfl
  | stamp q n => rfl
  | boxRect s top bot => rfl
  | entityAdd t => rfl
  | gapLine y => rfl
  | pageEnd => rfl

theorem RectsBounded_closeStoreBox (env : Env) (st : MState)
    (hy : 3200 ≤ st.y_pos) (hbnd : RectsBounded st.trace) :
    RectsBounded (closeStoreBox env st).trace := by
  obtain ⟨⟨d, hd, _hr, hb2, _he, _hs⟩, _hq, _hc⟩ := closeStoreBox_spec env st
  rw [hd]
  intro s top bot hmem
  rcases List.mem_append.mp hmem with h | h
  · exact hbnd s top bot h
  · rcases List.mem_cons.mp h with h | h
    · obtain ⟨_, _, hbot⟩ := Ev.boxRect.inj h
      rw [margin_eval, store_padding_eval] at *
      omega
    · exact absurd h (hb2 s top bot)

theorem gapStage_y (env : Env) (st : MState) (row : Row)
    (hy : 8900 ≤ st.y_pos) (hbnd : RectsBounded st.trace) :
    (∀ st', gapStage env st row = Sum.inl st' →
      RectsBounded st'.trace ∧ page_bottom_margin_y ≤ st'.y_pos) ∧
    (∀ st', gapStage env st row = Sum.inr st' →
      RectsBounded st'.trace ∧ 8900 ≤ st'.y_pos) := by
  have hclose_b : RectsBounded (closeStoreBox env st).trace :=
    RectsBounded_closeStoreBox env st (by omega) hbnd
  have hclose_y : page_bottom_margin_y ≤ (closeStoreBox env st).y_pos :=
    closeStoreBox_y env st (by omega)
  unfold gapStage
  by_cases h1 : some row.store ≠ st.current_store
  · rw [if_pos h1]
    by_cases h2 : (closeStoreBox env st).y_pos - store_gap < page_bottom_content_area_y
    · rw [if_pos h2]
      constructor
      · intro st' hst'
        have h := (Sum.inl.inj hst').symm
        subst h
        exact ⟨hclose_b, hclose_y⟩
      · intro st' hst'
        exact absurd hst' (by simp)
    · rw [if_neg h2]
      constructor
      · intro st' hst'
        exact absurd hst' (by simp)
      · intro st' hst'
        have h := (Sum.inr.inj hst').symm
        subst h
        constructor
        · refine RectsBounded_append hclose_b ?_
          intro s top bot hmem
          rcases List.mem_singleton.mp hmem with h
          exact absurd h (by simp)
        · show 8900 ≤ (closeStoreBox env st).y_pos - store_gap - store_padding
          rw [store_gap_eval, store_padding_eval,
            page_bottom_content_area_y_eval] at *
          omega
  · rw [if_neg h1]
    by_cases h3 : some row.order ≠ st.current_order
    · rw [if_pos h3]
      by_cases h4 : st.y_pos - order_gap < page_bottom_content_area_y
      · rw [if_pos h4]
        constructor
        · intro st' hst'
          have h := (Sum.inl.inj hst').symm
          subst h
          show RectsBounded st.trace ∧ page_bottom_margin_y ≤ st.y_pos
          refine ⟨hbnd, ?_⟩
          rw [page_bottom_margin_y_eval]
          omega
        · intro st' hst'
          exact absurd hst' (by simp)
      · rw [if_neg h4]
        constructor
        · intro st' hst'
          exact absurd hst' (by simp)
        · intro st' hst'
          have h := (Sum.inr.inj hst').symm
          subst h
          constructor
          · refine RectsBounded_append hbnd ?_
            intro s top bot hmem
            rcases List.mem_singleton.mp hmem with h
            exact absurd h (by simp)
          · show 8900 ≤ st.y_pos - order_gap
            rw [order_gap_eval, page_bottom_content_area_y_eval] at *
            omega
    · rw [if_neg h3]
      by_cases h5 : some row.job ≠ st.current_job
      · rw [if_pos h5]
        by_cases h6 : st.y_pos - job_gap < page_bottom_content_area_y
        · rw [if_pos h6]
          constructor
          · intro st' hst'
            have h := (Sum.inl.inj hst').symm
            subst h
            show RectsBounded st.trace ∧ page_bottom_margin_y ≤ st.y_pos
            refine ⟨hbnd, ?_⟩
            rw [page_bottom_margin_y_eval]
            omega
          · intro st' hst'
            exact absurd hst' (by simp)
        · rw [if_neg h6]
          constructor
          · intro st' hst'
            exact absurd hst' (by simp)
          · intro st' hst'
            have h := (Sum.inr.inj hst').symm
            subst h
            constructor
            · refine RectsBounded_append hbnd ?_
              intro s top bot hmem
              rcases List.mem_singleton.mp hmem with h
              exact absurd h (by simp)
            · show 8900 ≤ st.y_pos - job_gap
              rw [job_gap_eval, page_bottom_content_area_y_eval] at *
              omega
      · rw [if_neg h5]
        constructor
        · intro st' hst'
          exact absurd hst' (by simp)
        · intro st' hst'
          have h := (Sum.inr.inj hst').symm
          subst h
          exact ⟨hbnd, hy⟩

set_option maxHeartbeats 1000000 in
/-- Full specification of the row loop: it draws an initial segment `pre`
of its input in order (trace delta `d`), returns the untouched remainder,
logs every drawn row's entity triple, keeps stamps truncated, adds exactly
the drawn rows' quantities to `stamped + pending total`, and keeps page
starts balanced with stamps. -/
theorem procRows_spec (env : Env) (rows : List Row) : ∀ (st : MState),
    ∃ pre post d,
      rows = pre ++ post ∧
      (procRows env st rows).2 = (if post.isEmpty then none else some post) ∧
      (procRows env st rows).1.trace = st.trace ++ d ∧
      drawnRows d = pre ∧
      (∀ r ∈ pre, Ev.entityAdd (loggedTriple env.cols r) ∈ d) ∧
      (∀ q n, Ev.stamp q n ∈ d → n = pyIntTrunc q) ∧
      stampRawSum (procRows env st rows).1.trace
          + (procRows env st rows).1.page_total_qty
        = stampRawSum st.trace + st.page_total_qty
          + ((pre.map (rowQtyDelta env)).sum) ∧
      pageStartCount (procRows env st rows).1.trace + stampCount st.trace
        = stampCount (procRows env st rows).1.trace + pageStartCount st.trace := by
  induction rows with
  | nil =>
    intro st
    simp only [procRows]
    refine ⟨[], [], [], rfl, rfl, by simp, rfl, by simp, by simp, by simp, by omega⟩
  | cons row rest ih =>
    intro st
    obtain ⟨hof_t, hof_q⟩ := openFirstStore_fields st row
    rcases hg : gapStage env (openFirstStore st row) row with stA | stB
    · have hpr : procRows env st (row :: rest) = (stA, some (row :: rest)) := by
        rw [procRows, hg]
      obtain ⟨⟨d, hd, hnr, hne, hns⟩, hq, hc⟩ :=
        gapStage_quiet env (openFirstStore st row) row stA (Or.inl hg)
      simp only [hof_t, hof_q] at hd hq hc
      refine ⟨[], row :: rest, d, by simp, ?_, ?_, drawnRows_eq_nil hnr, by simp, hns,
        ?_, ?_⟩
      · rw [hpr]
        simp
      · rw [hpr]
        exact hd
      · rw [hpr]
        show stampRawSum stA.trace + stA.page_total_qty = _
        rw [hq]
        simp
      · rw [hpr]
        exact hc
    · have hpr : procRows env st (row :: rest)
          = if stB.y_pos - row_height < page_bottom_content_area_y then
              ({ stB with is_continuing_store_box := true }, some (row :: rest))
            else procRows env (drawRow env stB row) rest := by
        rw [procRows, hg]
      obtain ⟨⟨d, hd, hnr, hne, hns⟩, hq, hc⟩ :=
        gapStage_quiet env (openFirstStore st row) row stB (Or.inr hg)
      simp only [hof_t, hof_q] at hd hq hc
      by_cases hrc : stB.y_pos - row_height < page_bottom_content_area_y
      · rw [if_pos hrc] at hpr
        refine ⟨[], row :: rest, d, by simp, ?_, ?_, drawnRows_eq_nil hnr, by simp, hns,
          ?_, ?_⟩
        · rw [hpr]
          simp
        · rw [hpr]
          exact hd
        · rw [hpr]
          show stampRawSum stB.trace + stB.page_total_qty = _
          rw [hq]
          simp
        · rw [hpr]
          exact hc
      · rw [if_neg hrc] at hpr
        obtain ⟨hdt, hdq, _hdy, _h4, _h5, _h6, _h7, _h8, _h9, _h10⟩ :=
          drawRow_fields env stB row
        obtain ⟨pre, post, d2, hsplit, hret, ht2, hdr2, hent2, hst2, hq2, hc2⟩ :=
          ih (drawRow env stB row)
        refine ⟨row :: pre, post,
          d ++ [Ev.entityAdd (loggedTriple env.cols row), Ev.rowDrawn row] ++ d2,
          by simp [hsplit], ?_, ?_, ?_, ?_, ?_, ?_, ?_⟩
        · rw [hpr]
          exact hret
        · rw [hpr, ht2, hdt, hd]
          simp
        · rw [drawnRows_append, drawnRows_append, drawnRows_eq_nil hnr, hdr2]
          simp [drawnRows]
        · intro r hmem
          rcases List.mem_cons.mp hmem with h | h
          · subst h
            simp
          · have := hent2 r h
            simp only [List.mem_append]
            tauto
        · intro q n hmem
          rcases List.mem_append.mp hmem with h | h
          · rcases List.mem_append.mp h with h | h
            · exact hns q n h
            · rcases List.mem_cons.mp h with h | h
              · exact absurd h (by simp)
              · rcases List.mem_singleton.mp h with h
                exact absurd h (by simp)
          · exact hst2 q n h
        · rw [hpr]
          have hq3 : stampRawSum (drawRow env stB row).trace
              + (drawRow env stB row).page_total_qty
              = stampRawSum st.trace + st.page_total_qty + rowQtyDelta env row := by
            rw [hdt, hdq, stampRawSum_append]
            have h0 : stampRawSum
                [Ev.entityAdd (loggedTriple env.cols row), Ev.rowDrawn row] = 0 := by
              simp [stampRawSum, stampRaws]
            rw [h0]
            linarith [hq]
          rw [hq2, hq3]
          simp only [List.map_cons, List.sum_cons]
          ring
        · rw [hpr]
          have hz1 : pageStartCount
              [Ev.entityAdd (loggedTriple env.cols row), Ev.rowDrawn row] = 0 := by
            simp [pageStartCount]
          have hz2 : stampCount
              [Ev.entityAdd (loggedTriple env.cols row), Ev.rowDrawn row] = 0 := by
            simp [stampCount]
          rw [hdt, hd] at hc2
          rw [hd] at hc
          simp only [pageStartCount_append, stampCount_append, hz1, hz2] at hc2 hc ⊢
          omega

/-- The row loop keeps every store-box rectangle bottom at or above the
printable bottom margin and ends with the cursor at or above
`page_bottom_margin_y`, whenever it starts with the cursor in the content
area. -/
theorem procRows_y (env : Env) (rows : List Row) : ∀ (st : MState),
    9400 ≤ st.y_pos → RectsBounded st.trace →
      RectsBounded (procRows env st rows).1.trace ∧
      page_bottom_margin_y ≤ (procRows env st rows).1.y_pos := by
  induction rows with
  | nil =>
    intro st hy hbnd
    refine ⟨hbnd, ?_⟩
    show page_bottom_margin_y ≤ st.y_pos
    rw [page_bottom_margin_y_eval]
    omega
  | cons row rest ih =>
    intro st hy hbnd
    have hy1 : 8900 ≤ (openFirstStore st row).y_pos := by
      have hsp := store_padding_eval
      rcases openFirstStore_y st row with h | h <;> omega
    have hbnd1 : RectsBounded (openFirstStore st row).trace := by
      rw [(openFirstStore_fields st row).1]
      exact hbnd
    obtain ⟨hinl, hinr⟩ := gapStage_y env (openFirstStore st row) row hy1 hbnd1
    rcases hg : gapStage env (openFirstStore st row) row with stA | stB
    · have hpr : procRows env st (row :: rest) = (stA, some (row :: rest)) := by
        rw [procRows, hg]
      rw [hpr]
      exact hinl stA hg
    · have hpr : procRows env st (row :: rest)
          = if stB.y_pos - row_height < page_bottom_content_area_y then
              ({ stB with is_continuing_store_box := true }, some (row :: rest))
            else procRows env (drawRow env stB row) rest := by
        rw [procRows, hg]
      obtain ⟨hbndB, hyB⟩ := hinr stB hg
      by_cases hrc : stB.y_pos - row_height < page_bottom_content_area_y
      · rw [if_pos hrc] at hpr
        rw [hpr]
        refine ⟨hbndB, ?_⟩
        show page_bottom_margin_y ≤ stB.y_pos
        rw [page_bottom_margin_y_eval]
        omega
      · rw [if_neg hrc] at hpr
        rw [hpr]
        obtain ⟨hdt, _hdq, hdy, _⟩ := drawRow_fields env stB row
        refine ih (drawRow env stB row) ?_ ?_
        · rw [hdy, row_height_eval, page_bottom_content_area_y_eval] at *
          omega
        · rw [hdt]
          refine RectsBounded_append hbndB ?_
          intro s top bot hmem
          rcases List.mem_cons.mp hmem with h | h
          · exact absurd h (by simp)
          · rcases List.mem_singleton.mp h with h
            exact absurd h (by simp)

theorem pageSetup_fields (st : MState) :
    (pageSetup st).trace = st.trace ++ [Ev.pageStart] ∧
    (pageSetup st).page_total_qty = 0 ∧
    ((pageSetup st).y_pos = pageTopY - header_gap ∨
      (pageSetup st).y_pos = pageTopY - header_gap - store_padding) := by
  unfold pageSetup
  by_cases h : st.is_continuing_store_box = true
  · simp only [h, if_true]
    refine ⟨by simp, by simp, Or.inr (by simp)⟩
  · simp only [h, if_false]
    refine ⟨by simp, by simp, Or.inl (by simp)⟩

theorem endOfPage_spec (env : Env) (st : MState) (rem : Option (List Row)) :
    (∃ d, (endOfPage env st rem).trace = st.trace ++ d ∧
      (∀ r : Row, Ev.rowDrawn r ∉ d) ∧
      (∀ t, Ev.entityAdd t ∉ d) ∧
      (∀ q n, Ev.stamp q n ∈ d → n = pyIntTrunc q)) ∧
    stampRawSum (endOfPage env st rem).trace
      = stampRawSum st.trace + st.page_total_qty ∧
    pageStartCount (endOfPage env st rem).trace + stampCount st.trace + 1
      = stampCount (endOfPage env st rem).trace + pageStartCount st.trace := by
  cases rem with
  | some rs =>
    refine ⟨⟨[Ev.boxRect st.current_store ((st.store_start_y).getD 0)
        (st.y_pos - store_padding),
      Ev.stamp st.page_total_qty (pyIntTrunc st.page_total_qty), Ev.pageEnd],
      ?_, ?_, ?_, ?_⟩, ?_, ?_⟩
    · show (((st.trace ++ [Ev.boxRect st.current_store ((st.store_start_y).getD 0)
          (st.y_pos - store_padding)])
          ++ [Ev.stamp st.page_total_qty (pyIntTrunc st.page_total_qty)])
          ++ [Ev.pageEnd]) = _
      simp
    · intro r hmem
      simp only [List.mem_cons, List.mem_singleton] at hmem
      rcases hmem with h | h | h | h
      all_goals exact absurd h (by simp)
    · intro t hmem
      simp only [List.mem_cons, List.mem_singleton] at hmem
      rcases hmem with h | h | h | h
      all_goals exact absurd h (by simp)
    · intro q n hmem
      simp only [List.mem_cons, List.mem_singleton] at hmem
      rcases hmem with h | h | h | h
      · exact absurd h (by simp)
      · obtain ⟨hq, hn⟩ := Ev.stamp.inj h
        rw [hn, hq]
      · exact absurd h (by simp)
      · exact absurd h (by simp)
    · show stampRawSum (((st.trace ++ [Ev.boxRect st.current_store
          ((st.store_start_y).getD 0) (st.y_pos - store_padding)])
          ++ [Ev.stamp st.page_total_qty (pyIntTrunc st.page_total_qty)])
          ++ [Ev.pageEnd]) = _
      simp only [stampRawSum_append]
      simp [stampRawSum, stampRaws]
    · show pageStartCount (((st.trace ++ [Ev.boxRect st.current_store
          ((st.store_start_y).getD 0) (st.y_pos - store_padding)])
          ++ [Ev.stamp st.page_total_qty (pyIntTrunc st.page_total_qty)])
          ++ [Ev.pageEnd]) + stampCount st.trace + 1
        = stampCount (((st.trace ++ [Ev.boxRect st.current_store
          ((st.store_start_y).getD 0) (st.y_pos - store_padding)])
          ++ [Ev.stamp st.page_total_qty (pyIntTrunc st.page_total_qty)])
          ++ [Ev.pageEnd]) + pageStartCount st.trace
      simp only [pageStartCount_append, stampCount_append]
      simp [pageStartCount, stampCount]
      omega
  | none =>
    set st6 : MState := { st with
      y_pos := st.y_pos - store_padding
      trace := st.trace ++ [Ev.boxRect st.current_store ((st.store_start_y).getD 0)
        (st.y_pos - store_padding)] } with hst6
    set r := draw_message_block env.split
      (build_fragmentation_lines st6.entities_in_current_store_box env.store_report_map
        env.sheet_name) st6 st6.y_pos
      frag_msg_font_size frag_msg_line_height frag_msg_drawable_width
      page_bottom_margin_y with hr
    obtain ⟨⟨dM, hdM, hrM, hbM, heM, hsM⟩, hqM, hcM⟩ :
        MsgQuiet st6 r.1 := by
      rw [hr]
      exact draw_message_block_msgQuiet _ _ _ _ _ _ _ _
    have hend : (endOfPage env st none).trace
        = (r.1.trace ++ [Ev.stamp r.1.page_total_qty (pyIntTrunc r.1.page_total_qty)])
          ++ [Ev.pageEnd] := by
      rfl
    refine ⟨⟨(Ev.boxRect st.current_store ((st.store_start_y).getD 0)
        (st.y_pos - store_padding) :: dM)
        ++ [Ev.stamp r.1.page_total_qty (pyIntTrunc r.1.page_total_qty), Ev.pageEnd],
      ?_, ?_, ?_, ?_⟩, ?_, ?_⟩
    · rw [hend, hdM]
      show ((st.trace ++ [Ev.boxRect st.current_store ((st.store_start_y).getD 0)
          (st.y_pos - store_padding)]) ++ dM) ++ _ ++ _ = _
      simp
    · intro rr hmem
      rcases List.mem_append.mp hmem with h | h
      · rcases List.mem_cons.mp h with h | h
        · exact absurd h (by simp)
        · exact hrM rr h
      · simp only [List.mem_cons, List.mem_singleton] at h
        rcases h with h | h
        · exact absurd h (by simp)
        · exact absurd h (by simp)
    · intro t hmem
      rcases List.mem_append.mp hmem with h | h
      · rcases List.mem_cons.mp h with h | h
        · exact absurd h (by simp)
        · exact heM t h
      · simp only [List.mem_cons, List.mem_singleton] at h
        rcases h with h | h
        · exact absurd h (by simp)
        · exact absurd h (by simp)
    · intro q n hmem
      rcases List.mem_append.mp hmem with h | h
      · rcases List.mem_cons.mp h with h | h
        · exact absurd h (by simp)
        · exact hsM q n h
      · simp only [List.mem_cons, List.mem_singleton] at h
        rcases h with h | h
        · obtain ⟨hq, hn⟩ := Ev.stamp.inj h
          rw [hn, hq]
        · exact absurd h (by simp)
    · rw [hend]
      simp only [stampRawSum_append]
      have h1 : stampRawSum [Ev.stamp r.1.page_total_qty
          (pyIntTrunc r.1.page_total_qty)] = r.1.page_total_qty := by
        simp [stampRawSum, stampRaws]
      have h2 : stampRawSum ([Ev.pageEnd] : List Ev) = 0 := by
        simp [stampRawSum, stampRaws]
      rw [h1, h2]
      have h3 : stampRawSum st6.trace = stampRawSum st.trace := by
        rw [hst6]
        show stampRawSum (st.trace ++ _) = _
        rw [stampRawSum_append]
        simp [stampRawSum, stampRaws]
      have h4 : st6.page_total_qty = st.page_total_qty := by rw [hst6]
      rw [h3, h4] at hqM
      linarith [hqM]
    · rw [hend]
      simp only [pageStartCount_append, stampCount_append]
      have h1 : pageStartCount [Ev.stamp r.1.page_total_qty
          (pyIntTrunc r.1.page_total_qty)] = 0 := by simp [pageStartCount]
      have h2 : stampCount [Ev.stamp r.1.page_total_qty
          (pyIntTrunc r.1.page_total_qty)] = 1 := by simp [stampCount]
      have h3 : pageStartCount ([Ev.pageEnd] : List Ev) = 0 := by simp [pageStartCount]
      have h4 : stampCount ([Ev.pageEnd] : List Ev) = 0 := by simp [stampCount]
      have h5 : pageStartCount st6.trace = pageStartCount st.trace := by
        rw [hst6]
        show pageStartCount (st.trace ++ _) = _
        rw [pageStartCount_append]
        simp [pageStartCount]
      have h6 : stampCount st6.trace = stampCount st.trace := by
        rw [hst6]
        show stampCount (st.trace ++ _) = _
        rw [stampCount_append]
        simp [stampCount]
      rw [h5, h6] at hcM
      omega

theorem endOfPage_rects (env : Env) (st : MState) (rem : Option (List Row))
    (hy : page_bottom_margin_y ≤ st.y_pos) (hbnd : RectsBounded st.trace) :
    RectsBounded (endOfPage env st rem).trace := by
  have hrect : RectsBounded [Ev.boxRect st.current_store ((st.store_start_y).getD 0)
      (st.y_pos - store_padding)] := by
    intro s top bot hmem
    rcases List.mem_singleton.mp hmem with h
    obtain ⟨_, _, hbot⟩ := Ev.boxRect.inj h
    rw [margin_eval, store_padding_eval, page_bottom_margin_y_eval] at *
    omega
  cases rem with
  | some rs =>
    intro s top bot hmem
    have : (endOfPage env st (some rs)).trace
        = ((st.trace ++ [Ev.boxRect st.current_store ((st.store_start_y).getD 0)
            (st.y_pos - store_padding)])
          ++ [Ev.stamp st.page_total_qty (pyIntTrunc st.page_total_qty)])
          ++ [Ev.pageEnd] := rfl
    rw [this] at hmem
    rcases List.mem_append.mp hmem with h | h
    · rcases List.mem_append.mp h with h | h
      · rcases List.mem_append.mp h with h | h
        · exact hbnd s top bot h
        · exact hrect s top bot h
      · rcases List.mem_singleton.mp h with h
        exact absurd h (by simp)
    · rcases List.mem_singleton.mp h with h
      exact absurd h (by simp)
  | none =>
    set st6 : MState := { st with
      y_pos := st.y_pos - store_padding
      trace := st.trace ++ [Ev.boxRect st.current_store ((st.store_start_y).getD 0)
        (st.y_pos - store_padding)] } with hst6
    set r := draw_message_block env.split
      (build_fragmentation_lines st6.entities_in_current_store_box env.store_report_map
        env.sheet_name) st6 st6.y_pos
      frag_msg_font_size frag_msg_line_height frag_msg_drawable_width
      page_bottom_margin_y with hr
    obtain ⟨⟨dM, hdM, hrM, hbM, heM, hsM⟩, hqM, hcM⟩ :
        MsgQuiet st6 r.1 := by
      rw [hr]
      exact draw_message_block_msgQuiet _ _ _ _ _ _ _ _
    have hend : (endOfPage env st none).trace
        = (r.1.trace ++ [Ev.stamp r.1.page_total_qty (pyIntTrunc r.1.page_total_qty)])
          ++ [Ev.pageEnd] := rfl
    intro s top bot hmem
    rw [hend, hdM] at hmem
    have hst6t : st6.trace = st.trace ++ [Ev.boxRect st.current_store
        ((st.store_start_y).getD 0) (st.y_pos - store_padding)] := by rw [hst6]
    rw [hst6t] at hmem
    rcases List.mem_append.mp hmem with h | h
    · rcases List.mem_append.mp h with h | h
      · rcases List.mem_append.mp h with h | h
        · rcases List.mem_append.mp h with h | h
          · exact hbnd s top bot h
          · exact hrect s top bot h
        · exact absurd h (hbM s top bot)
      · rcases List.mem_singleton.mp h with h
        exact absurd h (by simp)
    · rcases List.mem_singleton.mp h with h
      exact absurd h (by simp)

theorem runPage_spec (env : Env) (st : MState) (rows : List Row) :
    ∃ pre post d,
      rows = pre ++ post ∧
      (runPage env st rows).2 = (if post.isEmpty then none else some post) ∧
      (runPage env st rows).1.trace = st.trace ++ d ∧
      drawnRows d = pre ∧
      (∀ r ∈ pre, Ev.entityAdd (loggedTriple env.cols r) ∈ d) ∧
      (∀ q n, Ev.stamp q n ∈ d → n = pyIntTrunc q) ∧
      stampRawSum (runPage env st rows).1.trace
        = stampRawSum st.trace + (pre.map (rowQtyDelta env)).sum ∧
      pageStartCount (runPage env st rows).1.trace + stampCount st.trace
        = stampCount (runPage env st rows).1.trace + pageStartCount st.trace := by
  obtain ⟨hst_t, hst_q, _⟩ := pageSetup_fields st
  obtain ⟨pre, post, dP, hsplit, hret, htP, hdrP, hentP, hstP, hqP, hcP⟩ :=
    procRows_spec env rows (pageSetup st)
  obtain ⟨⟨dE, hdE, hrE, heE, hsE⟩, hqE, hcE⟩ :=
    endOfPage_spec env (procRows env (pageSetup st) rows).1
      (procRows env (pageSetup st) rows).2
  refine ⟨pre, post, ([Ev.pageStart] ++ dP) ++ dE, hsplit, ?_, ?_, ?_, ?_, ?_, ?_, ?_⟩
  · show (procRows env (pageSetup st) rows).2 = _
    exact hret
  · show (endOfPage env (procRows env (pageSetup st) rows).1
        (procRows env (pageSetup st) rows).2).trace = _
    rw [hdE, htP, hst_t]
    simp
  · rw [drawnRows_append, drawnRows_append, hdrP, drawnRows_eq_nil hrE]
    simp [drawnRows]
  · intro r hmem
    have := hentP r hmem
    simp only [List.mem_append]
    tauto
  · intro q n hmem
    rcases List.mem_append.mp hmem with h | h
    · rcases List.mem_append.mp h with h | h
      · rcases List.mem_singleton.mp h with h
        exact absurd h (by simp)
      · exact hstP q n h
    · exact hsE q n h
  · show stampRawSum (endOfPage env (procRows env (pageSetup st) rows).1
        (procRows env (pageSetup st) rows).2).trace = _
    rw [hqE, hqP, hst_t, hst_q, stampRawSum_append]
    have h0 : stampRawSum [Ev.pageStart] = 0 := by simp [stampRawSum, stampRaws]
    rw [h0]
    ring
  · show pageStartCount (endOfPage env (procRows env (pageSetup st) rows).1
          (procRows env (pageSetup st) rows).2).trace + stampCount st.trace
        = stampCount (endOfPage env (procRows env (pageSetup st) rows).1
          (procRows env (pageSetup st) rows).2).trace + pageStartCount st.trace
    have h1 : pageStartCount (pageSetup st).trace = pageStartCount st.trace + 1 := by
      rw [hst_t, pageStartCount_append]
      simp [pageStartCount]
    have h2 : stampCount (pageSetup st).trace = stampCount st.trace := by
      rw [hst_t, stampCount_append]
      simp [stampCount]
    rw [h1, h2] at hcP
    omega

theorem runPage_rects (env : Env) (st : MState) (rows : List Row)
    (hbnd : RectsBounded st.trace) : RectsBounded (runPage env st rows).1.trace := by
  obtain ⟨hst_t, _, hy⟩ := pageSetup_fields st
  have hy0 : 9400 ≤ (pageSetup st).y_pos := by
    have e1 := pageTopY_eval
    have e2 := header_gap_eval
    have e3 := store_padding_eval
    rcases hy with h | h <;> omega
  have hbnd0 : RectsBounded (pageSetup st).trace := by
    rw [hst_t]
    refine RectsBounded_append hbnd ?_
    intro s top bot hmem
    rcases List.mem_singleton.mp hmem with h
    exact absurd h (by simp)
  obtain ⟨hbndP, hyP⟩ := procRows_y env rows (pageSetup st) hy0 hbnd0
  show RectsBounded (endOfPage env (procRows env (pageSetup st) rows).1
      (procRows env (pageSetup st) rows).2).trace
  exact endOfPage_rects env _ _ hyP hbndP

theorem paginate_spec (env : Env) : ∀ (fuel : Nat) (st : MState) (rows : List Row)
    (st' : MState), paginate env fuel st rows = some st' →
      (∃ d, st'.trace = st.trace ++ d ∧ drawnRows d = rows ∧
        (∀ r ∈ rows, Ev.entityAdd (loggedTriple env.cols r) ∈ d) ∧
        (∀ q n, Ev.stamp q n ∈ d → n = pyIntTrunc q)) ∧
      stampRawSum st'.trace = stampRawSum st.trace + ((rows.map (rowQtyDelta env)).sum) ∧
      pageStartCount st'.trace + stampCount st.trace
        = stampCount st'.trace + pageStartCount st.trace ∧
      (RectsBounded st.trace → RectsBounded st'.trace) := by
  intro fuel
  induction fuel with
  | zero =>
    intro st rows st' h
    unfold paginate at h
    by_cases hrows : rows.isEmpty = true
    · rw [if_pos hrows] at h
      obtain rfl := Option.some.inj h
      obtain rfl : rows = [] := by
        cases rows with
        | nil => rfl
        | cons a as => simp at hrows
      exact ⟨⟨[], by simp, rfl, by simp, by simp⟩, by simp, by omega, fun hb => hb⟩
    · rw [if_neg hrows] at h
      exact absurd h (by simp)
  | succ fuel ih =>
    intro st rows st' h
    by_cases hrows : rows.isEmpty = true
    · unfold paginate at h
      rw [if_pos hrows] at h
      obtain rfl := Option.some.inj h
      obtain rfl : rows = [] := by
        cases rows with
        | nil => rfl
        | cons a as => simp at hrows
      exact ⟨⟨[], by simp, rfl, by simp, by simp⟩, by simp, by omega, fun hb => hb⟩
    · obtain ⟨pre, post, dR, hsplit, hret, htR, hdrR, hentR, hstR, hqR, hcR⟩ :=
        runPage_spec env st rows
      rcases hpost : (runPage env st rows).2 with _ | rem
      · have hpag : paginate env (fuel + 1) st rows = some (runPage env st rows).1 := by
          rw [paginate, if_neg hrows]
          show (match (runPage env st rows).2 with
            | none => some (runPage env st rows).1
            | some r2 => paginate env fuel (runPage env st rows).1 r2)
            = some (runPage env st rows).1
          rw [hpost]
        rw [hpag] at h
        obtain rfl := Option.some.inj h
        have hpostnil : post = [] := by
          rw [hpost] at hret
          cases post with
          | nil => rfl
          | cons a as => simp at hret
        subst hpostnil
        rw [List.append_nil] at hsplit
        subst hsplit
        refine ⟨⟨dR, htR, hdrR, hentR, hstR⟩, hqR, hcR, runPage_rects env st rows⟩
      · have hpag : paginate env (fuel + 1) st rows
            = paginate env fuel (runPage env st rows).1 rem := by
          rw [paginate, if_neg hrows]
          show (match (runPage env st rows).2 with
            | none => some (runPage env st rows).1
            | some r2 => paginate env fuel (runPage env st rows).1 r2)
            = paginate env fuel (runPage env st rows).1 rem
          rw [hpost]
        rw [hpag] at h
        have hpostrem : post = rem := by
          rw [hpost] at hret
          cases post with
          | nil => simp at hret
          | cons a as =>
            simp at hret
            exact hret.symm
        subst hpostrem
        obtain ⟨⟨d2, ht2, hdr2, hent2, hst2⟩, hq2, hc2, hrb2⟩ :=
          ih (runPage env st rows).1 post st' h
        refine ⟨⟨dR ++ d2, ?_, ?_, ?_, ?_⟩, ?_, ?_, ?_⟩
        · rw [ht2, htR]
          simp
        · rw [drawnRows_append, hdrR, hdr2, hsplit]
        · intro r hmem
          rw [hsplit] at hmem
          rcases List.mem_append.mp hmem with hm | hm
          · have := hentR r hm
            simp only [List.mem_append]
            tauto
          · have := hent2 r hm
            simp only [List.mem_append]
            tauto
        · intro q n hmem
          rcases List.mem_append.mp hmem with hm | hm
          · exact hstR q n hm
          · exact hst2 q n hm
        · rw [hq2, hqR, hsplit]
          simp only [List.map_append, List.sum_append]
          ring
        · rw [htR] at hc2
          simp only [pageStartCount_append, stampCount_append] at hc2 ⊢
          rw [htR] at hcR
          simp only [pageStartCount_append, stampCount_append] at hcR
          omega
        · intro hb
          exact hrb2 (runPage_rects env st rows hb)

/-! ### Helper lemmas for the claim theorems -/

theorem string_append_assoc (a b c : String) : a ++ b ++ c = a ++ (b ++ c) :=
  String.append_assoc a b c

theorem cleanCellText_na : cleanCellText CellVal.na = "" := by decide

theorem cleanCellText_sentinel (s : String) (h : pyLower (pyStrip s) = "nan") :
    cleanCellText (CellVal.str s) = "" := by
  simp [cleanCellText, pdIsNa, pyStr, h]

theorem cleanCellText_plain (s : String) (h : pyLower (pyStrip s) ≠ "nan") :
    cleanCellText (CellVal.str s) = s := by
  simp [cleanCellText, pdIsNa, pyStr, h]

theorem toNumeric_empty : toNumeric "" = none := by decide

theorem get_store_num_empty : get_store_num "" = "" := by decide

theorem rowQtyDelta_eq (env : Env) (r : Row) :
    rowQtyDelta env r
      = (toNumeric (cleanCellText (r.get env.cols env.cols.quantity_ordered))).getD 0 := by
  unfold rowQtyDelta pdfCols
  rcases hq : toNumeric (cleanCellText (r.get env.cols env.cols.quantity_ordered))
    with _ | q <;> simp [hq, qAdd_eq]

theorem takeWhile_of_all {p : Char → Bool} :
    ∀ {l : List Char}, (∀ c ∈ l, p c = true) → l.takeWhile p = l := by
  intro l
  induction l with
  | nil => intro _; rfl
  | cons a as ih =>
    intro h
    rw [List.takeWhile_cons, if_pos (h a (by simp))]
    rw [ih (fun c hc => h c (by simp [hc]))]

/-! ### Claim theorems: the pagination machine (C1, C4, C5, C9, C10) -/

/-- C1: for every sheet run that completes, the sum of the per-page
stamped quantity totals — stamped either at normal page close
(`endOfPage`) or by the forced-break callback inside the message drawer
(`triggerPageBreakForMessages`) — equals the sum of the numeric quantity
values of all rows of the sheet, and stamps are in bijection with pages
(stamp count = page-start count, i.e. each page is stamped exactly once).
The proof's invariant is exactly the claim's mechanism: the total is
reset to zero at each page start and each drawn row's quantity is added
exactly once. -/
theorem c1_page_total_conservation (env : Env) (fuel : Nat) (rows : List Row)
    (st : MState) (h : runSheet env fuel rows = some st) :
    stampRawSum st.trace = ((rows.map (rowQtyDelta env)).sum) ∧
    stampCount st.trace = pageStartCount st.trace := by
  obtain ⟨_, hq, hc, _⟩ := paginate_spec env fuel initState rows st h
  constructor
  · rw [hq]
    have h0 : stampRawSum initState.trace = 0 := rfl
    rw [h0]
    ring
  · have h0 : stampCount initState.trace = 0 := rfl
    have h1 : pageStartCount initState.trace = 0 := rfl
    omega

set_option maxRecDepth 40000 in
/-- Witness for C1 at the three-row scenario of spec §8 (page total 15). -/
theorem c1_page_total_conservation_witness :
    runSheet envW 5 sheet3 = some stW3 ∧
    stampRawSum stW3.trace = ((sheet3.map (rowQtyDelta envW)).sum) ∧
    stampCount stW3.trace = pageStartCount stW3.trace :=
  ⟨by decide, (c1_page_total_conservation envW 5 sheet3 stW3 (by decide)).1,
    (c1_page_total_conservation envW 5 sheet3 stW3 (by decide)).2⟩

/-- C4: for every pre-sorted row sequence whose pagination completes,
every row of the sheet is drawn exactly once and in input order across
the generated pages: the drawn-row trace equals the input row list.  A
deferred row is the head of the remainder `procRows` returns and is
re-evaluated first on the next page; no row is skipped or drawn twice. -/
theorem c4_rows_drawn_once_in_order (env : Env) (fuel : Nat) (rows : List Row)
    (st : MState) (h : runSheet env fuel rows = some st) :
    drawnRows st.trace = rows := by
  obtain ⟨⟨d, hd, hdr, _, _⟩, _, _, _⟩ := paginate_spec env fuel initState rows st h
  rw [hd]
  show drawnRows ([] ++ d) = rows
  rw [List.nil_append, hdr]

set_option maxRecDepth 60000 in
/-- Witness for C4 on a 70-row sheet that spans two pages (the 63rd row is
deferred and resumed). -/
theorem c4_rows_drawn_once_in_order_witness :
    runSheet envW 9 sheetC5b = some stC5b ∧
    drawnRows stC5b.trace = sheetC5b :=
  ⟨by decide, c4_rows_drawn_once_in_order envW 9 sheetC5b stC5b (by decide)⟩

set_option maxRecDepth 60000 in
/-- C5 counterexample: on `sheetC5x` store A's rows all sit on page 1
(`pagesContaining "A" = 1`), yet three rectangle segments are drawn for
store A — the close at the store change (line 456), the end-of-page
rectangle (line 602) for the same box, and a stale re-close at the top of
page 2 when the deferred store transition is re-run — so "exactly N
segments for a store spanning N pages" fails. -/
theorem c5_box_segments_counterexample :
    runSheet envW 9 sheetC5x = some stC5x ∧
    pagesContaining "A" stC5x.trace = 1 ∧
    rectsFor "A" stC5x.trace = 3 :=
  ⟨by decide, by decide, by decide⟩

set_option maxRecDepth 60000 in
/-- C5 (amended): no store-box rectangle segment ever extends below the
printable bottom margin (its bottom edge stays at or above `margin`,
proved for every completed run); and in the plain row-overflow
continuation case the segment count does match the page count — shown
concretely for a store spanning two pages (one segment per page, each
closed at that page's content boundary or last row).  Extra (and stale)
segments appear only when a store transition itself is deferred, as in
the counterexample. -/
theorem c5_box_segments_amended (env : Env) (fuel : Nat) (rows : List Row)
    (st : MState) (h : runSheet env fuel rows = some st) :
    (∀ s top bot, Ev.boxRect s top bot ∈ st.trace → margin ≤ bot) ∧
    (runSheet envW 9 sheetC5b = some stC5b ∧
      pagesContaining "A" stC5b.trace = 2 ∧ rectsFor "A" stC5b.trace = 2) := by
  constructor
  · obtain ⟨_, _, _, hrb⟩ := paginate_spec env fuel initState rows st h
    have h0 : RectsBounded initState.trace := by
      intro s top bot hmem
      exact absurd hmem (by simp [initState])
    exact hrb h0
  · exact ⟨by decide, by decide, by decide⟩

set_option maxRecDepth 60000 in
/-- Witness for C5 (amended): a concrete segment of the two-page store A
run, with its bottom edge above the printable margin. -/
theorem c5_box_segments_witness :
    runSheet envW 9 sheetC5b = some stC5b ∧
    Ev.boxRect (some "A") 105516 9476 ∈ stC5b.trace ∧
    margin ≤ 9476 :=
  ⟨by decide, by decide,
    (c5_box_segments_amended envW 9 sheetC5b stC5b (by decide)).1
      (some "A") 105516 9476 (by decide)⟩

/-- C9: every value stamped into a page's header total cell is the
accumulated rational total truncated toward zero (`int()`), so a page
whose accumulated total is non-integral is stamped with a value different
from the true accumulated sum — shown concretely for a one-row sheet with
quantity 2.5, stamped as 2. -/
theorem c9_stamped_total_truncated (env : Env) (fuel : Nat) (rows : List Row)
    (st : MState) (h : runSheet env fuel rows = some st) :
    (∀ q n, Ev.stamp q n ∈ st.trace → n = pyIntTrunc q) ∧
    (runSheet envW 5 sheetC9 = some stC9 ∧
      stampRaws stC9.trace = [mkRat 5 2] ∧
      stampShowns stC9.trace = [pyIntTrunc (mkRat 5 2)] ∧
      ((pyIntTrunc (mkRat 5 2) : ℚ) ≠ mkRat 5 2)) := by
  constructor
  · intro q n hmem
    obtain ⟨⟨d, hd, _, _, hs⟩, _, _, _⟩ := paginate_spec env fuel initState rows st h
    rw [hd] at hmem
    rcases List.mem_append.mp hmem with hm | hm
    · exact absurd hm (by simp [initState])
    · exact hs q n hm
  · exact ⟨by decide, by decide, by decide, by decide⟩

set_option maxRecDepth 10000 in
/-- Witness for C9: the 2.5-quantity page's stamp event. -/
theorem c9_stamped_total_truncated_witness :
    runSheet envW 5 sheetC9 = some stC9 ∧
    Ev.stamp (mkRat 5 2) 2 ∈ stC9.trace ∧
    (2 : Int) = pyIntTrunc (mkRat 5 2) :=
  ⟨by decide, by decide,
    (c9_stamped_total_truncated envW 5 sheetC9 stC9 (by decide)).1
      (mkRat 5 2) 2 (by decide)⟩

set_option maxRecDepth 10000 in
/-- C10 counterexample: a row whose store key is null is stringified to
`"nan"` by the `astype(str)` preparation (lines 293-295), so the
`pd.notna` guard of line 537 passes, its triple IS added to the entity
set, and it CAN produce a fragmentation message — contradicting the
claim that null-keyed rows are never added and can never produce one. -/
theorem c10_entity_set_counterexample :
    pdIsNa rawNull.store = true ∧
    runSheet envNan 3 [prepRow rawNull] = some stNan ∧
    Ev.entityAdd ("nan", "1", "J") ∈ stNan.trace ∧
    build_fragmentation_lines stNan.entities_in_current_store_box mapNan "SheetA"
      = ["Store nan has other content appearing in: SheetB"] :=
  ⟨by decide, by decide, by decide, by decide⟩

/-- C10 (amended): the key columns are stringified before pagination, so
the `pd.notna` guard of line 537 never filters anything: for every
completed run (with distinct key-column names), every row's
(store, order, job) triple is logged into the open store box's entity
set — including rows whose originally-null keys became the string
`"nan"`, which can therefore produce fragmentation messages. -/
theorem c10_entity_set_amended (env : Env) (fuel : Nat) (rows : List Row)
    (st : MState) (hkeys : env.cols.keysDistinct)
    (h : runSheet env fuel rows = some st) :
    ∀ r ∈ rows, Ev.entityAdd (r.store, r.order, r.job) ∈ st.trace := by
  intro r hr
  obtain ⟨⟨d, hd, _, hent, _⟩, _, _, _⟩ := paginate_spec env fuel initState rows st h
  have hm := hent r hr
  rw [loggedTriple_eq env.cols r hkeys] at hm
  rw [hd]
  exact List.mem_append.mpr (Or.inr hm)

set_option maxRecDepth 40000 in
/-- Witness for C10 (amended) at the three-row scenario. -/
theorem c10_entity_set_amended_witness :
    colsW.keysDistinct ∧
    runSheet envW 5 sheet3 = some stW3 ∧
    Ev.entityAdd ("100", "1", "1") ∈ stW3.trace :=
  ⟨by refine ⟨by decide, by decide, by decide⟩, by decide,
    c10_entity_set_amended envW 5 sheet3 stW3
      ⟨by decide, by decide, by decide⟩ (by decide)
      (rowW "100" "1" "1" "5") (by decide)⟩

/-! ### Claim theorems: annotator, planner, cells (C2, C3, C6, C7, C8) -/

/-- C2 counterexample: a store flagged as fragmented whose destination
list is the nonempty list `[""]` — which does not contain the current
sheet, so "destinations after excluding the current sheet" is the
nonempty `[""]` — produces NO message, because the destinations join to
the empty display string and line 184's emptiness test is on the joined
string, not on the list.  The claim's "non-empty destinations ⇒ message"
direction fails. -/
theorem c2_fragmentation_message_counterexample :
    List.lookup "5001" mapEmptyDest = some ⟨true, [""], []⟩ ∧
    (([""] : List String).filter (fun d => d ≠ "SheetA")) ≠ [] ∧
    build_fragmentation_lines [("5001", "X", "Y")] mapEmptyDest "SheetA" = [] :=
  ⟨rfl, by decide, by decide⟩

/-- C2 (amended): for an entity set containing a store whose map entry is
flagged fragmented, if the *joined display string* of the destinations
other than the current sheet is nonempty, a message
`"Store <store number><context>" ++ <joined destinations>` is emitted;
and when the destination list contains nothing but the current sheet,
every message the annotator emits comes from a *different* store — none
is emitted for this store.  (The counterexample shows the nonemptiness
really is of the joined string, not of the filtered list.) -/
theorem c2_fragmentation_message_amended (m : StoreReportMap)
    (sheet store_id o j : String) (ents : List (String × String × String))
    (stE : StoreEntry)
    (hlk : List.lookup store_id m = some stE)
    (hmem : (store_id, o, j) ∈ ents) :
    (stE.is_fragmented = true → format_dests stE.destinations sheet ≠ "" →
      ∃ mid, ("Store " ++ get_store_num store_id ++ mid)
          ++ format_dests stE.destinations sheet
        ∈ build_fragmentation_lines ents m sheet) ∧
    (stE.destinations.filter (fun d => d ≠ sheet) = [] →
      ∀ msg ∈ build_fragmentation_lines ents m sheet,
        ∃ e ∈ ents, e.1 ≠ store_id ∧ entityMsg m sheet e = some msg) := by
  constructor
  · intro hf hne
    have key : ∃ mid, entityMsg m sheet (store_id, o, j)
        = some (("Store " ++ get_store_num store_id ++ mid)
            ++ format_dests stE.destinations sheet) := by
      rcases hlo : List.lookup o stE.fragmented_orders with _ | mo
      · exact ⟨" has other content appearing in: ",
          by simp [entityMsg, hlk, hf, hlo, hne, string_append_assoc]⟩
      · by_cases hmo : mo.is_fragmented
        · rcases hlj : List.lookup j mo.fragmented_jobs with _ | mj
          · exact ⟨" (" ++ ("Order " ++ o) ++ ") has other content appearing in: ",
              by simp [entityMsg, hlk, hf, hlo, hmo, hlj, hne, pyJoin,
                string_append_assoc]⟩
          · by_cases hkey : (List.lookup "is_fragmentED" mj).getD false
            · exact ⟨" (" ++ ("Order " ++ o) ++ ", " ++ ("JOB " ++ j)
                  ++ ") has other content appearing in: ",
                by simp [entityMsg, hlk, hf, hlo, hmo, hlj, hkey, hne, pyJoin,
                  string_append_assoc]⟩
            · exact ⟨" (" ++ ("Order " ++ o) ++ ") has other content appearing in: ",
                by simp [entityMsg, hlk, hf, hlo, hmo, hlj, hkey, hne, pyJoin,
                  string_append_assoc]⟩
        · exact ⟨" has other content appearing in: ",
            by simp [entityMsg, hlk, hf, hlo, hmo, hne, string_append_assoc]⟩
    obtain ⟨mid, hkey2⟩ := key
    exact ⟨mid, mem_build_fragmentation_lines.mpr ⟨(store_id, o, j), hmem, hkey2⟩⟩
  · intro hdest msg hmsg
    obtain ⟨e, he, heq⟩ := mem_build_fragmentation_lines.mp hmsg
    refine ⟨e, he, ?_, heq⟩
    intro h1
    have hdd : format_dests stE.destinations sheet = "" := by
      unfold format_dests
      rw [hdest]
      rfl
    by_cases hf2 : stE.is_fragmented
    · simp [entityMsg, h1, hlk, hf2, hdd] at heq
    · simp [entityMsg, h1, hlk, hf2] at heq

/-- Witness for C2 (amended) at the spec's example: store "5001",
destinations ["SheetB"], current sheet "SheetA". -/
theorem c2_fragmentation_message_witness :
    List.lookup "5001" mapW5001 = some ⟨true, ["SheetB"], []⟩ ∧
    ("5001", "O1", "J1") ∈ [("5001", "O1", "J1")] ∧
    format_dests ["SheetB"] "SheetA" ≠ "" ∧
    ∃ mid, ("Store " ++ get_store_num "5001" ++ mid) ++ format_dests ["SheetB"] "SheetA"
      ∈ build_fragmentation_lines [("5001", "O1", "J1")] mapW5001 "SheetA" := by
  refine ⟨rfl, by decide, by decide, ?_⟩
  exact (c2_fragmentation_message_amended mapW5001 "SheetA" "5001" "O1" "J1"
    [("5001", "O1", "J1")] ⟨true, ["SheetB"], []⟩ rfl (by decide)).1 rfl (by decide)

/-- C3: the code cannot produce the claimed "Order X, Job Y" suffix.  The
job-level map entry stores the spec's per-level flag under the key
`is_fragmented`, but line 191 reads the key `'is_fragmentED'`, whose
lookup misses, so the job context is dropped: an entity whose order AND
job are both flagged gets only the "(Order O1)" context.  (Even if the
lookup matched, line 192 would append `"JOB J1"`, not `"Job J1"`.) -/
theorem c3_job_suffix_code_eval :
    (List.lookup "is_fragmented" [("is_fragmented", true)]).getD false = true ∧
    (List.lookup "is_fragmentED" [("is_fragmented", true)]).getD false = false ∧
    entityMsg mapC3 "SheetA" ("5001", "O1", "J1")
      = some "Store 5001 (Order O1) has other content appearing in: SheetB" ∧
    "Store 5001 (Order O1) has other content appearing in: SheetB"
      ≠ "Store 5001 (Order O1, Job J1) has other content appearing in: SheetB" :=
  ⟨by decide, by decide, by decide, by decide⟩

/-- C6 counterexample: with two 189-pt columns, 100 pt available and a
108-pt minimum, the planner's proportional shrink is overridden by the
`max(min_width, ·)` floors and returns (108, 108), whose sum 216 exceeds
the available 100 pt — the invariant "total ≤ printable width" fails for
this width configuration. -/
theorem c6_width_planner_counterexample :
    planDynamicWidths 189 189 100 108 = (108, 108) ∧
    ¬ ((planDynamicWidths 189 189 100 108).1
        + (planDynamicWidths 189 189 100 108).2 ≤ 100) := by
  have h : planDynamicWidths 189 189 100 108 = (108, 108) := by
    simp only [planDynamicWidths]
    rw [if_pos (by norm_num : (100 : ℚ) < 189 + 189),
      if_pos (by norm_num : (0 : ℚ) < 189 + 189)]
    have e1 : (189 : ℚ) - (189 + 189 - 100) * (189 / (189 + 189)) = 50 := by norm_num
    rw [e1, max_eq_left (by norm_num : (50 : ℚ) ≤ 108)]
  refine ⟨h, ?_⟩
  rw [h]
  show ¬ ((108 : ℚ) + 108 ≤ 100)
  norm_num

/-- C6 (amended): the planner's total respects the available width
whenever the defaults already fit, or the shrunken widths stay above the
minimum floor (so the `max(min_width, ·)` floor of lines 146-147 does not
re-inflate them); the floors can otherwise push the total past the
available width, as the counterexample shows. -/
theorem c6_width_planner_amended (sku_w desc_w avail_w min_w : ℚ)
    (h : sku_w + desc_w ≤ avail_w ∨
      (0 < sku_w + desc_w ∧
        min_w ≤ sku_w - (sku_w + desc_w - avail_w) * (sku_w / (sku_w + desc_w)) ∧
        min_w ≤ desc_w - (sku_w + desc_w - avail_w) * (desc_w / (sku_w + desc_w)))) :
    (planDynamicWidths sku_w desc_w avail_w min_w).1
      + (planDynamicWidths sku_w desc_w avail_w min_w).2 ≤ avail_w := by
  simp only [planDynamicWidths]
  by_cases hc : avail_w < sku_w + desc_w
  · rw [if_pos hc]
    rcases h with h | ⟨hpos, h1, h2⟩
    · linarith
    · rw [if_pos hpos]
      show max min_w (sku_w - (sku_w + desc_w - avail_w) * (sku_w / (sku_w + desc_w)))
          + max min_w (desc_w - (sku_w + desc_w - avail_w) * (desc_w / (sku_w + desc_w)))
          ≤ avail_w
      rw [max_eq_right h1, max_eq_right h2]
      have hs : sku_w + desc_w ≠ 0 := ne_of_gt hpos
      have hsum : sku_w - (sku_w + desc_w - avail_w) * (sku_w / (sku_w + desc_w))
          + (desc_w - (sku_w + desc_w - avail_w) * (desc_w / (sku_w + desc_w)))
          = avail_w := by
        field_simp
        ring
      linarith
  · rw [if_neg hc]
    show sku_w + desc_w ≤ avail_w
    exact le_of_not_lt hc

/-- Witness for C6 (amended) at the repo's shipped configuration, where
the two 189-pt defaults fit into the 414.8-pt available width. -/
theorem c6_width_planner_witness :
    sku_default_width + desc_default_width ≤ available_table_width ∧
    (planDynamicWidths sku_default_width desc_default_width available_table_width
        planner_min_width).1
      + (planDynamicWidths sku_default_width desc_default_width available_table_width
        planner_min_width).2 ≤ available_table_width := by
  have h : sku_default_width + desc_default_width ≤ available_table_width := by
    norm_num [sku_default_width, desc_default_width, available_table_width, fixed_cols_width]
  exact ⟨h, c6_width_planner_amended _ _ _ _ (Or.inl h)⟩

/-- C7: a missing cell value (NaN) or a string that strips and lowercases
to the sentinel `'nan'` renders as the empty string in every configured
display column (lines 545-550), and a quantity cell whose cleaned text is
non-numeric (which includes missing: it cleans to `""`) contributes
exactly zero to the page total accumulation (lines 555-558) — the row is
still drawn and the total advances by its (zero) delta. -/
theorem c7_missing_values_render (split : SplitFn) (col : ColSpec) (v : CellVal)
    (env : Env) (r : Row) (st : MState) (row : Row)
    (hsplit : ∀ f sz w, (split "" f sz w).headD "" = "")
    (hv : v = CellVal.na ∨ ∃ s, v = CellVal.str s ∧ pyLower (pyStrip s) = "nan")
    (hq : toNumeric (cleanCellText (r.get env.cols env.cols.quantity_ordered)) = none) :
    cellRenderedText split col v = "" ∧
    rowQtyDelta env r = 0 ∧
    (drawRow env st row).page_total_qty = st.page_total_qty + rowQtyDelta env row := by
  have hclean : cleanCellText v = "" := by
    rcases hv with rfl | ⟨s, rfl, hs⟩
    · exact cleanCellText_na
    · exact cleanCellText_sentinel s hs
  refine ⟨?_, ?_, (drawRow_fields env st row).2.1⟩
  · simp only [cellRenderedText, hclean]
    by_cases hcol : col.name = "Store\nNumber"
    · rw [if_pos hcol, if_pos hcol, get_store_num_empty]
      exact hsplit _ _ _
    · rw [if_neg hcol, if_neg hcol]
      exact hsplit _ _ _
  · rw [rowQtyDelta_eq, hq]
    rfl

/-- Witness for C7: the sentinel string `" NaN "` in the Store Number
column renders empty, and the non-numeric quantity `"abc"` adds zero. -/
theorem c7_missing_values_render_witness :
    pyLower (pyStrip " NaN ") = "nan" ∧
    toNumeric (cleanCellText ((rowW "A" "1" "1" "abc").get colsW
      colsW.quantity_ordered)) = none ∧
    cellRenderedText splitW storeColW (CellVal.str " NaN ") = "" ∧
    rowQtyDelta envW (rowW "A" "1" "1" "abc") = 0 := by
  have hs : ∀ f : String, ∀ sz w : Int, (splitW "" f sz w).headD "" = "" :=
    fun _ _ _ => rfl
  have hc := c7_missing_values_render splitW storeColW (CellVal.str " NaN ") envW
    (rowW "A" "1" "1" "abc") initState (rowW "A" "1" "1" "abc") hs
    (Or.inr ⟨" NaN ", rfl, by decide⟩) (by decide)
  exact ⟨by decide, by decide, hc.1, hc.2.1⟩

/-- C8 counterexample: the rendered Store Number for the id `" 77 "`
(no `'-'` inside) is `"77"`, not the id "unchanged": the split-and-strip
of line 553 (and of `get_store_num`, line 167) strips surrounding
whitespace even when no `'-'` is present. -/
theorem c8_store_number_counterexample :
    cellRenderedText splitW storeColW (CellVal.str " 77 ") = "77" ∧
    (∀ c ∈ (" 77 " : String).data, c ≠ '-') ∧
    cellRenderedText splitW storeColW (CellVal.str " 77 ") ≠ " 77 " :=
  ⟨by decide, by decide, by decide⟩

/-- C8 (amended): the Store Number cell of a row displays
`get_store_num` of the store id — the text before the first `'-'`,
stripped of surrounding whitespace (matching the number embedded in
fragmentation messages, which use the same `get_store_num`) — provided
the id is not the `'nan'` sentinel and the wrapper leaves the short
store number on one line; an id with no `'-'` is displayed *stripped*,
not unchanged. -/
theorem c8_store_number_amended (split : SplitFn) (col : ColSpec) (sid : String)
    (hcol : col.name = "Store\nNumber")
    (hnan : pyLower (pyStrip sid) ≠ "nan")
    (hsplit : split (get_store_num sid) CUSTOM_FONT_BOLD 1000
      (col.width - 2 * text_cell_padding) = [get_store_num sid]) :
    cellRenderedText split col (CellVal.str sid) = get_store_num sid ∧
    ((∀ c ∈ sid.data, c ≠ '-') → get_store_num sid = pyStrip sid) := by
  constructor
  · simp only [cellRenderedText, cleanCellText_plain sid hnan]
    rw [if_pos hcol, if_pos hcol, hsplit]
    rfl
  · intro hall
    unfold get_store_num
    rw [takeWhile_of_all (fun c hc => decide_eq_true (hall c hc))]

/-- Witness for C8 (amended): id "12-A" renders as "12". -/
theorem c8_store_number_witness :
    storeColW.name = "Store\nNumber" ∧
    pyLower (pyStrip "12-A") ≠ "nan" ∧
    splitW (get_store_num "12-A") CUSTOM_FONT_BOLD 1000
      (storeColW.width - 2 * text_cell_padding) = [get_store_num "12-A"] ∧
    cellRenderedText splitW storeColW (CellVal.str "12-A") = get_store_num "12-A" ∧
    get_store_num "12-A" = "12" :=
  ⟨rfl, by decide, rfl,
    (c8_store_number_amended splitW storeColW "12-A" rfl (by decide) rfl).1, by decide⟩

end MarcomPdf
